import Mathlib

/-! Kullect cost handler.

A shallow embedding of `kullect.go`, the Kapacitor UDF agent handler that turns
the resource usage of a point into its share of the hourly cluster cost, and
theorems about it.

Modelling conventions.

* Go `int` / `int64` values are Lean `Int`s (the handler never does integer
  arithmetic, so no wrap-around can occur; `int` is taken to be 64 bits wide, so
  `int(int64)` is the identity).
* Go `float64` values are modelled by `float64` below: a finite value is the
  rational it denotes, the non-finite values are `+Inf`, `-Inf` and `NaN`.  Every
  conversion from an integer, every quotient and every product is rounded to 53
  significant bits, to nearest with ties to even (`float64.round`), as binary64
  arithmetic does.  The exponent range is not modelled (no overflow to infinity,
  no subnormal numbers): on `int64` operands no value computed by the handler
  leaves the normal range.  The sign of zero is not modelled.
* Go `int(f)` for a `float64` truncates toward zero; outside the range of `int`
  the result is implementation-dependent and is here the one of amd64.
* A Go map is an association list read with `List.lookup`; reading an absent
  key gives the zero value.  A `nil` map is the empty list.
* A Go `error` is an `Option String`, `none` being `nil`.
* A run-time panic (index out of range, failed type assertion) is the `error`
  side of `Except Panic`.
* The channel `agent.Responses` is the sequence of the messages sent on it so
  far; a send appends at the end.
-/

/-! ## Floating point -/

/-- Go `float64`: a finite value (the rational it denotes), an infinity or NaN. -/
inductive float64 where
  | fin (q : ℚ)
  | posInf
  | negInf
  | nan
  deriving DecidableEq, Repr

/-- The infinity whose sign is that of `x` for `x ≠ 0`, NaN for `x = 0`;
the value of `x / 0` and of `x * Inf`. -/
def float64.infOfSign (x : ℚ) : float64 :=
  if x = 0 then .nan else if 0 < x then .posInf else .negInf

/-- The integer nearest to `x`, the even one of the two when `x` lies half way. -/
def roundHalfEven (x : ℚ) : Int :=
  if x - ⌊x⌋ < 1 / 2 then ⌊x⌋
  else if 1 / 2 < x - ⌊x⌋ then ⌊x⌋ + 1
  else if ⌊x⌋ % 2 = 0 then ⌊x⌋ else ⌊x⌋ + 1

/-- Rounding of a real result to binary64 precision: the nearest number with 53
significant bits, ties to even.  For `2 ^ e ≤ |q| < 2 ^ (e + 1)` the spacing of such
numbers is `2 ^ (e - 52)`. -/
def float64.round (q : ℚ) : ℚ :=
  if q = 0 then 0
  else (roundHalfEven (q / (2 : ℚ) ^ (Int.log 2 |q| - 52)) : ℚ) *
    (2 : ℚ) ^ (Int.log 2 |q| - 52)

/-- Go `float64(n)` for an integer `n`: rounded when `n` needs more than 53 bits. -/
def float64.ofInt (n : Int) : float64 := .fin (float64.round (n : ℚ))

/-- Go `x / y` on `float64`. -/
def float64.div : float64 → float64 → float64
  | .fin x, .fin y => if y = 0 then float64.infOfSign x else .fin (float64.round (x / y))
  | .fin _, .posInf => .fin 0
  | .fin _, .negInf => .fin 0
  | .posInf, .fin y => if 0 ≤ y then .posInf else .negInf
  | .negInf, .fin y => if 0 ≤ y then .negInf else .posInf
  | .posInf, .posInf => .nan
  | .posInf, .negInf => .nan
  | .negInf, .posInf => .nan
  | .negInf, .negInf => .nan
  | .nan, _ => .nan
  | _, .nan => .nan

/-- Go `x * y` on `float64`. -/
def float64.mul : float64 → float64 → float64
  | .fin x, .fin y => .fin (float64.round (x * y))
  | .fin x, .posInf => float64.infOfSign x
  | .fin x, .negInf => float64.infOfSign (-x)
  | .posInf, .fin y => float64.infOfSign y
  | .negInf, .fin y => float64.infOfSign (-y)
  | .posInf, .posInf => .posInf
  | .posInf, .negInf => .negInf
  | .negInf, .posInf => .negInf
  | .negInf, .negInf => .posInf
  | .nan, _ => .nan
  | _, .nan => .nan

/-- The value `d` with its fraction discarded (truncation toward zero). -/
def float64.trunc (d : ℚ) : Int := if 0 ≤ d then ⌊d⌋ else ⌈d⌉

/-- Go `int(d)` for a finite `float64` value `d`: the fraction is discarded.  When the
truncated value does not fit the 64-bit `int` the result is implementation-dependent;
amd64 gives the least `int`, which is what is modelled. -/
def float64.toInt (d : ℚ) : Int :=
  if -9223372036854775808 ≤ float64.trunc d ∧ float64.trunc d ≤ 9223372036854775807 then
    float64.trunc d
  else -9223372036854775808

/-! ## The `udf` protocol types used by the handler -/

/-- Go `error`; `none` is `nil`. -/
abbrev error := Option String

/-- Run-time panics the handler can raise. -/
inductive Panic where
  | indexOutOfRange
  | typeAssertion
  deriving DecidableEq, Repr

/-- Modelled from the spec: `udf.OptionValue` (declared in the Kapacitor `udf`
package, not in this repository), a typed option value: "typed values —
integer, real, string" (the protocol also has booleans and durations).  A
double value is finite. -/
inductive udf.OptionValue where
  | BoolValue (v : Bool)
  | IntValue (v : Int)
  | DoubleValue (v : ℚ)
  | StringValue (v : String)
  | DurationValue (v : Int)
  deriving DecidableEq, Repr

/-- Modelled from the spec: `udf.Option`, "a list of `{name, value(s)}` option
entries with typed values". -/
structure udf.Option where
  Name : String
  Values : List udf.OptionValue
  deriving DecidableEq, Repr

/-- Modelled from the spec: `udf.InitRequest`, the "initialization-request
message carrying the configuration entries". -/
structure udf.InitRequest where
  Options : List udf.Option
  deriving DecidableEq, Repr

/-- Modelled from the spec: `udf.InitResponse`, the initialization-response
`{success: bool, error: string}`. -/
structure udf.InitResponse where
  Success : Bool
  Error : String
  deriving DecidableEq, Repr

/-- Modelled from the spec: `udf.Point`, "a record carrying a timestamp, a set
of tags (opaque key→string pairs), and typed field maps (integer fields, string
fields, floating-point fields)", together with the other attributes of the
protocol message (name, database, retention policy, group, dimensions). -/
structure udf.Point where
  Time : Int
  Name : String
  Database : String
  RetentionPolicy : String
  Group : String
  Dimensions : List String
  Tags : List (String × String)
  FieldsDouble : List (String × float64)
  FieldsInt : List (String × Int)
  FieldsString : List (String × String)
  deriving DecidableEq, Repr

/-- Modelled from the spec: `udf.Response`, "an outbound envelope wrapping
either a processed Point or a control message". -/
inductive udf.Response where
  | Response_Point (Point : udf.Point)
  | Response_Error (Error : String)
  deriving DecidableEq, Repr

/-- Modelled from the spec: `udf.BeginBatch`, the batch-start message. -/
structure udf.BeginBatch where
  deriving DecidableEq, Repr

/-- Modelled from the spec: `udf.EndBatch`, the batch-end message. -/
structure udf.EndBatch where
  deriving DecidableEq, Repr

/-- Modelled from the spec: `udf.EdgeType`, the directionality of an edge: a
point-wise stream or batches. -/
inductive udf.EdgeType where
  | STREAM
  | BATCH
  deriving DecidableEq, Repr

/-- Modelled from the spec: `udf.ValueType`, the type expected of an option value. -/
inductive udf.ValueType where
  | BOOL
  | INT
  | DOUBLE
  | STRING
  | DURATION
  deriving DecidableEq, Repr

/-- Modelled from the spec: `udf.OptionInfo`, the value types a recognised option
expects. -/
structure udf.OptionInfo where
  ValueTypes : List udf.ValueType
  deriving DecidableEq, Repr

/-- Modelled from the spec: `udf.InfoResponse`, the capability-response: "declares
stream-in/stream-out directionality and the three recognized option names with
their expected value types". -/
structure udf.InfoResponse where
  Wants : udf.EdgeType
  Provides : udf.EdgeType
  Options : List (String × udf.OptionInfo)
  deriving DecidableEq, Repr

/-- Modelled from the spec: `udf.SnapshotResponse`, the snapshot-response; its
payload is a byte string, empty in the zero value. -/
structure udf.SnapshotResponse where
  Snapshot : List Nat
  deriving DecidableEq, Repr

/-- Modelled from the spec: `udf.RestoreRequest`, the restore-request carrying a
snapshot payload. -/
structure udf.RestoreRequest where
  Snapshot : List Nat
  deriving DecidableEq, Repr

/-- Modelled from the spec: `udf.RestoreResponse`, the restore-response; `Error`
is empty in the zero value. -/
structure udf.RestoreResponse where
  Success : Bool
  Error : String
  deriving DecidableEq, Repr

/-- Modelled from the spec: `agent.Agent`, of which the handler uses only the
outbound channel `Responses`, modelled as the sequence of messages sent. -/
structure agent.Agent where
  Responses : List udf.Response
  deriving DecidableEq, Repr

/-- Go `m[k]` on a `map[string]int64`: the stored value, or `0` when absent. -/
def mapIndex (m : List (String × Int)) (k : String) : Int :=
  (m.lookup k).getD 0

/-! ## The handler -/

/-- The handler state (`type costHandler struct`). -/
structure costHandler where
  hourly_cost : Int
  total_cpu : Int
  total_memory : Int
  agent : agent.Agent
  deriving DecidableEq, Repr

/-- The constructor `newCostHandler`: all settings are the zero value. -/
def newCostHandler (a : agent.Agent) : costHandler :=
  { hourly_cost := 0, total_cpu := 0, total_memory := 0, agent := a }

/-- The method `Info`: the handler, the response and the Go error. -/
def costHandler.Info (a : costHandler) : costHandler × udf.InfoResponse × error :=
  let info : udf.InfoResponse :=
    { Wants := .STREAM
      Provides := .STREAM
      Options := [("total_cpu", { ValueTypes := [.INT] }),
        ("total_memory", { ValueTypes := [.INT] }),
        ("hourly_cost", { ValueTypes := [.DOUBLE] })] }
  (a, info, none)

/-- Go `opt.Values[0].Value.(*udf.OptionValue_DoubleValue).DoubleValue`. -/
def firstDouble (opt : udf.Option) : Except Panic ℚ :=
  match opt.Values with
  | [] => .error .indexOutOfRange
  | .DoubleValue d :: _ => .ok d
  | _ :: _ => .error .typeAssertion

/-- Go `opt.Values[0].Value.(*udf.OptionValue_IntValue).IntValue`. -/
def firstInt (opt : udf.Option) : Except Panic Int :=
  match opt.Values with
  | [] => .error .indexOutOfRange
  | .IntValue i :: _ => .ok i
  | _ :: _ => .error .typeAssertion

/-- One iteration of the loop of `Init`: the `switch opt.Name`. -/
def costHandler.initOption (a : costHandler) (opt : udf.Option) : Except Panic costHandler :=
  if opt.Name = "hourly_cost" then
    match firstDouble opt with
    | .error e => .error e
    | .ok d => .ok { a with hourly_cost := float64.toInt d }
  else if opt.Name = "total_cpu" then
    match firstInt opt with
    | .error e => .error e
    | .ok i => .ok { a with total_cpu := i }
  else if opt.Name = "total_memory" then
    match firstInt opt with
    | .error e => .error e
    | .ok i => .ok { a with total_memory := i }
  else .ok a

/-- The loop `for _, opt := range r.Options` of `Init`. -/
def costHandler.initOptions (a : costHandler) : List udf.Option → Except Panic costHandler
  | [] => .ok a
  | opt :: rest =>
    match a.initOption opt with
    | .error e => .error e
    | .ok a1 => a1.initOptions rest

/-- The message for a missing hourly cost. -/
def msgHourlyCost : String :=
  " must supply the hourly cost of your entire kubernetes cluster"

/-- The message for a missing CPU total. -/
def msgTotalCpu : String :=
  " must supply the total available millicores in your cluster"

/-- The message for a missing memory total. -/
def msgTotalMemory : String :=
  " must supply the total available memory  in megabytes from your cluster"

/-- The three checks of `Init` on the stored settings. -/
def costHandler.validate (a : costHandler) : udf.InitResponse :=
  let init : udf.InitResponse := { Success := true, Error := "" }
  let init := if a.hourly_cost = 0 then
    { init with Success := false, Error := init.Error ++ msgHourlyCost } else init
  let init := if a.total_cpu = 0 then
    { init with Success := false, Error := init.Error ++ msgTotalCpu } else init
  let init := if a.total_memory = 0 then
    { init with Success := false, Error := init.Error ++ msgTotalMemory } else init
  init

/-- The method `Init`: the handler after the call, the response and the Go error. -/
def costHandler.Init (a : costHandler) (r : udf.InitRequest) :
    Except Panic (costHandler × udf.InitResponse × error) :=
  match a.initOptions r.Options with
  | .error e => .error e
  | .ok a1 => .ok (a1, a1.validate, none)

/-- The method `Snaphost`: the zero-valued snapshot response. -/
def costHandler.Snaphost (a : costHandler) : costHandler × udf.SnapshotResponse × error :=
  (a, { Snapshot := [] }, none)

/-- The method `Restore`. -/
def costHandler.Restore (a : costHandler) (_ : udf.RestoreRequest) :
    costHandler × udf.RestoreResponse × error :=
  (a, { Success := true, Error := "" }, none)

/-- The method `BeginBatch`. -/
def costHandler.BeginBatch (a : costHandler) (_ : udf.BeginBatch) : costHandler × error :=
  (a, some "batching not supported")

/-- The method `EndBatch`. -/
def costHandler.EndBatch (a : costHandler) (_ : udf.EndBatch) : costHandler × error :=
  (a, some "batching not supported")

/-- The point that `Point` sends: the body of `Point` up to the send. -/
def costHandler.costPoint (a : costHandler) (p : udf.Point) : udf.Point :=
  let cpu_usage := float64.ofInt (mapIndex p.FieldsInt "cpu.value")
  let memory_usage := float64.ofInt (mapIndex p.FieldsInt "memory.value")
  let uptime := float64.ofInt (mapIndex p.FieldsInt "uptime.value")
  let hourly_uptime := uptime.div (float64.ofInt 36000000)
  let uptime_cost := hourly_uptime.mul (float64.ofInt a.hourly_cost)
  let cpu_cost := uptime_cost.mul (cpu_usage.div (float64.ofInt a.total_cpu))
  let memory_cost := uptime_cost.mul (memory_usage.div (float64.ofInt a.total_memory))
  let p := { p with FieldsDouble := [("cpu_cost", cpu_cost), ("memory_cost", memory_cost)] }
  let p := { p with FieldsInt := [] }
  let p := { p with FieldsString := [] }
  p

/-- The method `Point`: compute the costs, send the point, return `nil`. -/
def costHandler.Point (a : costHandler) (p : udf.Point) : costHandler × error :=
  ({ a with agent := { Responses := a.agent.Responses ++ [.Response_Point (a.costPoint p)] } },
    none)

/-! ## Auxiliary notions used to state the properties -/

/-- The typing precondition of `Init` on one entry: a recognised name carries at
least one value, and the first value has the type `Init` asserts for it. -/
def udf.Option.wellTyped (opt : udf.Option) : Bool :=
  if opt.Name = "hourly_cost" then
    match opt.Values with
    | .DoubleValue _ :: _ => true
    | _ => false
  else if opt.Name = "total_cpu" ∨ opt.Name = "total_memory" then
    match opt.Values with
    | .IntValue _ :: _ => true
    | _ => false
  else true

/-- The string `s` contains the message `msg` as a contiguous piece. -/
def mentions (s msg : String) : Prop := msg.data <:+: s.data

instance (s msg : String) : Decidable (mentions s msg) := by
  unfold mentions; infer_instance

/-- The method `Point` called on each point of a list in turn: the final handler
and the Go errors returned, in call order. -/
def costHandler.Points (a : costHandler) : List udf.Point → costHandler × List error
  | [] => (a, [])
  | p :: ps =>
    let r := a.Point p
    let rs := r.1.Points ps
    (rs.1, r.2 :: rs.2)

/-- A batch control message. -/
inductive BatchMessage where
  | Begin (b : udf.BeginBatch)
  | End (e : udf.EndBatch)
  deriving DecidableEq, Repr

/-- Dispatch of one batch control message to `BeginBatch` or `EndBatch`. -/
def costHandler.batch (a : costHandler) : BatchMessage → costHandler × error
  | .Begin b => a.BeginBatch b
  | .End e => a.EndBatch e

/-- The handler after a sequence of batch control messages. -/
def costHandler.batches (a : costHandler) : List BatchMessage → costHandler
  | [] => a
  | m :: ms => (a.batch m).1.batches ms

/-- The entry carries one of the three names `Init` switches on. -/
def udf.Option.recognised (opt : udf.Option) : Bool :=
  opt.Name = "hourly_cost" ∨ opt.Name = "total_cpu" ∨ opt.Name = "total_memory"

/-! ## Lemmas on the floating-point model -/

theorem roundHalfEven_eq (x : ℚ) (n : Int) (h : |x - n| < 1 / 2) : roundHalfEven x = n := by
  rw [abs_lt] at h
  obtain ⟨h1, h2⟩ := h
  unfold roundHalfEven
  by_cases hn : (n : ℚ) ≤ x
  · have hf : ⌊x⌋ = n := by
      rw [Int.floor_eq_iff]
      constructor <;> linarith
    rw [hf, if_pos (by linarith)]
  · have hf : ⌊x⌋ = n - 1 := by
      rw [Int.floor_eq_iff]
      push_cast
      constructor <;> linarith
    have : ¬ (x - ((n - 1 : Int) : ℚ) < 1 / 2) := by push_cast; linarith
    rw [hf, if_neg this, if_pos (by push_cast; linarith)]
    ring

/-- The rounding to an integer is at most one half away. -/
theorem roundHalfEven_sub_le (x : ℚ) : |(roundHalfEven x : ℚ) - x| ≤ 1 / 2 := by
  have h1 := Int.floor_le x
  have h2 := Int.lt_floor_add_one x
  unfold roundHalfEven
  rw [abs_le]
  split_ifs <;> push_cast <;> constructor <;> linarith

/-- The binary exponent of a positive rational, from two bounds. -/
theorem float64.log_eq (q : ℚ) (e : Int) (h1 : (2 : ℚ) ^ e ≤ q) (h2 : q < (2 : ℚ) ^ (e + 1)) :
    Int.log 2 q = e := by
  have hq : 0 < q := lt_of_lt_of_le (by positivity) h1
  apply le_antisymm
  · have := (Int.lt_zpow_iff_log_lt (b := 2) (by norm_num) hq (x := e + 1)).mp (by simpa using h2)
    omega
  · exact (Int.zpow_le_iff_le_log (b := 2) (by norm_num) hq).mp (by simpa using h1)

/-- Evaluation of the rounding: with `2 ^ e ≤ |q| < 2 ^ (e + 1)` and `n` the integer
less than one half away from `q / 2 ^ (e - 52)`, the rounded value is `n * 2 ^ (e - 52)`. -/
theorem float64.round_eq (q : ℚ) (e n : Int) (h1 : (2 : ℚ) ^ e ≤ |q|)
    (h2 : |q| < (2 : ℚ) ^ (e + 1)) (h3 : |q / (2 : ℚ) ^ (e - 52) - n| < 1 / 2) :
    float64.round q = n * (2 : ℚ) ^ (e - 52) := by
  have hq : q ≠ 0 := by
    intro h0
    rw [h0, abs_zero] at h1
    exact absurd h1 (not_le.mpr (by positivity))
  unfold float64.round
  rw [if_neg hq, float64.log_eq |q| e h1 h2, roundHalfEven_eq _ n h3]

theorem float64.round_zero : float64.round 0 = 0 := by simp [float64.round]

/-- A non-zero value is not rounded to zero (the exponent range is unbounded). -/
theorem float64.round_ne_zero (q : ℚ) (hq : q ≠ 0) : float64.round q ≠ 0 := by
  have hpos : 0 < |q| := abs_pos.mpr hq
  have hu : (0 : ℚ) < (2 : ℚ) ^ (Int.log 2 |q| - 52) := by positivity
  have hl : (2 : ℚ) ^ Int.log 2 |q| ≤ |q| := by
    simpa using Int.zpow_log_le_self (b := 2) (by norm_num) hpos
  have hy : (2 : ℚ) ^ (52 : Int) ≤ |q / (2 : ℚ) ^ (Int.log 2 |q| - 52)| := by
    rw [abs_div, abs_of_pos hu, le_div_iff₀ hu, ← zpow_add₀ (by norm_num)]
    simpa using hl
  have hr := roundHalfEven_sub_le (q / (2 : ℚ) ^ (Int.log 2 |q| - 52))
  unfold float64.round
  rw [if_neg hq]
  refine mul_ne_zero ?_ (ne_of_gt hu)
  intro h0
  rw [h0, zero_sub, abs_neg] at hr
  have : (2 : ℚ) ^ (52 : Int) ≤ 1 / 2 := le_trans hy hr
  norm_num at this

/-- The rounding is to nearest: the relative error is at most `2 ^ (-53)`. -/
theorem float64.round_error (q : ℚ) : |float64.round q - q| ≤ |q| * (2 : ℚ) ^ (-53 : Int) := by
  by_cases hq : q = 0
  · simp [hq, float64.round]
  · have hpos : 0 < |q| := abs_pos.mpr hq
    have hu : (0 : ℚ) < (2 : ℚ) ^ (Int.log 2 |q| - 52) := by positivity
    have hl : (2 : ℚ) ^ Int.log 2 |q| ≤ |q| := by
      simpa using Int.zpow_log_le_self (b := 2) (by norm_num) hpos
    have hr := roundHalfEven_sub_le (q / (2 : ℚ) ^ (Int.log 2 |q| - 52))
    unfold float64.round
    rw [if_neg hq]
    have e1 : (roundHalfEven (q / (2 : ℚ) ^ (Int.log 2 |q| - 52)) : ℚ) *
        (2 : ℚ) ^ (Int.log 2 |q| - 52) - q
        = ((roundHalfEven (q / (2 : ℚ) ^ (Int.log 2 |q| - 52)) : ℚ) -
            q / (2 : ℚ) ^ (Int.log 2 |q| - 52)) * (2 : ℚ) ^ (Int.log 2 |q| - 52) := by
      field_simp
    rw [e1, abs_mul, abs_of_pos hu]
    have e2 : (2 : ℚ) ^ (Int.log 2 |q| - 52) * (1 / 2)
        = (2 : ℚ) ^ Int.log 2 |q| * (2 : ℚ) ^ (-53 : Int) := by
      rw [zpow_sub₀ (by norm_num)]
      norm_num
      ring
    calc _ ≤ 1 / 2 * (2 : ℚ) ^ (Int.log 2 |q| - 52) :=
          mul_le_mul_of_nonneg_right hr (le_of_lt hu)
      _ = (2 : ℚ) ^ Int.log 2 |q| * (2 : ℚ) ^ (-53 : Int) := by rw [mul_comm, e2]
      _ ≤ |q| * (2 : ℚ) ^ (-53 : Int) := mul_le_mul_of_nonneg_right hl (by positivity)

theorem roundHalfEven_intCast (n : Int) : roundHalfEven (n : ℚ) = n :=
  roundHalfEven_eq _ n (by simp)

/-- A value with at most 53 significant bits is not changed by the rounding. -/
theorem float64.round_dyadic (m k : Int) (hm : |m| < 2 ^ 53) :
    float64.round ((m : ℚ) * (2 : ℚ) ^ k) = (m : ℚ) * (2 : ℚ) ^ k := by
  by_cases h0 : m = 0
  · simp [h0, float64.round]
  have h2k : (0 : ℚ) < (2 : ℚ) ^ k := by positivity
  have hq : (m : ℚ) * (2 : ℚ) ^ k ≠ 0 := mul_ne_zero (by exact_mod_cast h0) (ne_of_gt h2k)
  have hpos : 0 < |(m : ℚ) * (2 : ℚ) ^ k| := abs_pos.mpr hq
  have hl : (2 : ℚ) ^ Int.log 2 |(m : ℚ) * (2 : ℚ) ^ k| ≤ |(m : ℚ) * (2 : ℚ) ^ k| := by
    simpa using Int.zpow_log_le_self (b := 2) (by norm_num) hpos
  have hmq : |(m : ℚ)| < (2 : ℚ) ^ (53 : Int) := by
    have : ((|m| : Int) : ℚ) < ((2 ^ 53 : Int) : ℚ) := by exact_mod_cast hm
    rw [Int.cast_abs] at this
    refine lt_of_lt_of_le this ?_
    norm_num
  have hlt : (2 : ℚ) ^ Int.log 2 |(m : ℚ) * (2 : ℚ) ^ k| < (2 : ℚ) ^ (53 + k) := by
    refine lt_of_le_of_lt hl ?_
    rw [abs_mul, abs_of_pos h2k, zpow_add₀ (by norm_num)]
    exact mul_lt_mul_of_pos_right hmq h2k
  have he : Int.log 2 |(m : ℚ) * (2 : ℚ) ^ k| < 53 + k :=
    (zpow_lt_zpow_iff_right₀ (by norm_num : (1 : ℚ) < 2)).mp hlt
  obtain ⟨j, hj⟩ : ∃ j : ℕ, (j : Int) = k - Int.log 2 |(m : ℚ) * (2 : ℚ) ^ k| + 52 :=
    ⟨(k - Int.log 2 |(m : ℚ) * (2 : ℚ) ^ k| + 52).toNat, Int.toNat_of_nonneg (by omega)⟩
  have hdiv : (m : ℚ) * (2 : ℚ) ^ k / (2 : ℚ) ^ (Int.log 2 |(m : ℚ) * (2 : ℚ) ^ k| - 52)
      = ((m * 2 ^ j : Int) : ℚ) := by
    rw [mul_div_assoc, ← zpow_sub₀ (by norm_num)]
    have : k - (Int.log 2 |(m : ℚ) * (2 : ℚ) ^ k| - 52) = (j : Int) := by omega
    rw [this]
    push_cast
    rw [zpow_natCast]
  unfold float64.round
  rw [if_neg hq, hdiv, roundHalfEven_intCast]
  push_cast
  rw [mul_assoc, ← zpow_natCast, ← zpow_add₀ (by norm_num)]
  congr 2
  omega

/-- An integer below `2 ^ 53` in absolute value is converted exactly. -/
theorem float64.round_intCast (n : Int) (h : |n| < 2 ^ 53) : float64.round (n : ℚ) = n := by
  simpa using float64.round_dyadic n 0 h

theorem float64.round_ofNat (n : ℕ) [n.AtLeastTwo] (h : n < 2 ^ 53) :
    float64.round (OfNat.ofNat n : ℚ) = OfNat.ofNat n := by
  have hn : |(n : Int)| < 2 ^ 53 := by
    rw [abs_of_nonneg (Int.natCast_nonneg n)]
    exact_mod_cast h
  simpa using float64.round_intCast (n : Int) hn

theorem float64.round_one : float64.round 1 = 1 := by
  simpa using float64.round_intCast 1 (by norm_num)

theorem float64.round_half : float64.round (1 / 2) = 1 / 2 := by
  simpa using float64.round_dyadic 1 (-1) (by norm_num)

theorem float64.toInt_of_trunc (d : ℚ) (h1 : -9223372036854775808 ≤ float64.trunc d)
    (h2 : float64.trunc d ≤ 9223372036854775807) : float64.toInt d = float64.trunc d := by
  unfold float64.toInt
  rw [if_pos ⟨h1, h2⟩]

theorem float64.toInt_eq (d : ℚ) (n : Int) (h0 : 0 ≤ d) (h1 : (n : ℚ) ≤ d) (h2 : d < n + 1)
    (h3 : n ≤ 9223372036854775807) : float64.toInt d = n := by
  have ht : float64.trunc d = n := by
    unfold float64.trunc
    rw [if_pos h0, Int.floor_eq_iff]
    exact ⟨h1, h2⟩
  have hn : (0 : ℚ) < (n : ℚ) + 1 := lt_of_le_of_lt h0 h2
  have hn0 : 0 ≤ n := by
    have : (0 : ℚ) < ((n + 1 : Int) : ℚ) := by push_cast; exact hn
    have := Int.cast_pos.mp this
    omega
  rw [float64.toInt_of_trunc d (by rw [ht]; omega) (by rw [ht]; exact h3), ht]

theorem float64.div_ofInt (x y : Int) (hy : y ≠ 0) :
    (float64.ofInt x).div (float64.ofInt y)
      = .fin (float64.round (float64.round (x : ℚ) / float64.round (y : ℚ))) := by
  have h : float64.round (y : ℚ) ≠ 0 := float64.round_ne_zero _ (by exact_mod_cast hy)
  simp [float64.ofInt, float64.div, h]

theorem float64.mul_fin (x y : ℚ) :
    (float64.fin x).mul (.fin y) = .fin (float64.round (x * y)) := rfl

/-! ## Lemmas on `Point` -/

/-- With non-zero totals, the two costs are finite: each is the result of the four
steps over the stored settings, every step rounded. -/
theorem costHandler.costPoint_FieldsDouble (a : costHandler) (p : udf.Point)
    (hc : a.total_cpu ≠ 0) (hm : a.total_memory ≠ 0) :
    (a.costPoint p).FieldsDouble =
      [("cpu_cost", .fin (float64.round (float64.round (float64.round
          (float64.round (mapIndex p.FieldsInt "uptime.value" : ℚ) / 36000000) *
            float64.round (a.hourly_cost : ℚ)) *
          float64.round (float64.round (mapIndex p.FieldsInt "cpu.value" : ℚ) /
            float64.round (a.total_cpu : ℚ))))),
       ("memory_cost", .fin (float64.round (float64.round (float64.round
          (float64.round (mapIndex p.FieldsInt "uptime.value" : ℚ) / 36000000) *
            float64.round (a.hourly_cost : ℚ)) *
          float64.round (float64.round (mapIndex p.FieldsInt "memory.value" : ℚ) /
            float64.round (a.total_memory : ℚ)))))] := by
  simp only [costHandler.costPoint]
  rw [float64.div_ofInt _ _ hc, float64.div_ofInt _ _ hm,
    float64.div_ofInt _ 36000000 (by norm_num)]
  have h36 : float64.round (36000000 : ℚ) = 36000000 :=
    float64.round_ofNat 36000000 (by norm_num)
  simp [float64.ofInt, float64.mul_fin, h36]

/-- The point sent is the input with its three field maps replaced. -/
theorem costHandler.costPoint_eq (a : costHandler) (p : udf.Point) :
    a.costPoint p =
      { p with FieldsDouble := (a.costPoint p).FieldsDouble, FieldsInt := [],
               FieldsString := [] } := rfl

/-- The costs of the scenario: one hour of uptime on the settings `(10, 4000, 8192)`
with half of each total in use.  Every step is exact in binary64. -/
theorem costHandler.costPoint_scenario (ag : agent.Agent) (p : udf.Point)
    (hcpu : mapIndex p.FieldsInt "cpu.value" = 2000)
    (hmem : mapIndex p.FieldsInt "memory.value" = 4096)
    (hup : mapIndex p.FieldsInt "uptime.value" = 36000000) :
    ((⟨10, 4000, 8192, ag⟩ : costHandler).costPoint p).FieldsDouble
      = [("cpu_cost", .fin 5), ("memory_cost", .fin 5)] := by
  have r36 : float64.round (36000000 : ℚ) = 36000000 := float64.round_ofNat _ (by norm_num)
  have r10 : float64.round (10 : ℚ) = 10 := float64.round_ofNat _ (by norm_num)
  have r5 : float64.round (5 : ℚ) = 5 := float64.round_ofNat _ (by norm_num)
  have r2000 : float64.round (2000 : ℚ) = 2000 := float64.round_ofNat _ (by norm_num)
  have r4000 : float64.round (4000 : ℚ) = 4000 := float64.round_ofNat _ (by norm_num)
  have r4096 : float64.round (4096 : ℚ) = 4096 := float64.round_ofNat _ (by norm_num)
  have r8192 : float64.round (8192 : ℚ) = 8192 := float64.round_ofNat _ (by norm_num)
  rw [costHandler.costPoint_FieldsDouble _ _ (by simp) (by simp), hcpu, hmem, hup]
  simp only [Int.cast_ofNat, r36, r10, r2000, r4000, r4096, r8192]
  rw [div_self (by norm_num), float64.round_one, one_mul, r10,
    show (2000 : ℚ) / 4000 = 1 / 2 by norm_num,
    show (4096 : ℚ) / 8192 = 1 / 2 by norm_num, float64.round_half,
    show (10 : ℚ) * (1 / 2) = 5 by norm_num, r5]

/-- With the hourly cost `0` stored and non-zero totals, both costs are `0`. -/
theorem costHandler.costPoint_hourly_zero (a : costHandler) (p : udf.Point)
    (hh : a.hourly_cost = 0) (hc : a.total_cpu ≠ 0) (hm : a.total_memory ≠ 0) :
    (a.costPoint p).FieldsDouble = [("cpu_cost", .fin 0), ("memory_cost", .fin 0)] := by
  rw [costHandler.costPoint_FieldsDouble _ _ hc hm, hh]
  simp [float64.round_zero]

/-- The point sent depends on the handler through its three settings only. -/
theorem costHandler.costPoint_congr (a b : costHandler) (p : udf.Point)
    (h1 : a.hourly_cost = b.hourly_cost) (h2 : a.total_cpu = b.total_cpu)
    (h3 : a.total_memory = b.total_memory) : a.costPoint p = b.costPoint p := by
  simp [costHandler.costPoint, h1, h2, h3]

/-! ## Lemmas on `Init` -/

theorem costHandler.validate_Success (a : costHandler) :
    a.validate.Success = true ↔ a.hourly_cost ≠ 0 ∧ a.total_cpu ≠ 0 ∧ a.total_memory ≠ 0 := by
  by_cases h1 : a.hourly_cost = 0 <;> by_cases h2 : a.total_cpu = 0 <;>
    by_cases h3 : a.total_memory = 0 <;> simp [costHandler.validate, h1, h2, h3]

theorem costHandler.validate_Error (a : costHandler) :
    a.validate.Error =
      (if a.hourly_cost = 0 then msgHourlyCost else "") ++
      (if a.total_cpu = 0 then msgTotalCpu else "") ++
      (if a.total_memory = 0 then msgTotalMemory else "") := by
  by_cases h1 : a.hourly_cost = 0 <;> by_cases h2 : a.total_cpu = 0 <;>
    by_cases h3 : a.total_memory = 0 <;> simp [costHandler.validate, h1, h2, h3]

theorem costHandler.initOption_ok (a : costHandler) (opt : udf.Option)
    (h : opt.wellTyped = true) : ∃ a1, a.initOption opt = .ok a1 := by
  unfold udf.Option.wellTyped at h
  unfold costHandler.initOption firstDouble firstInt
  split_ifs at h ⊢ <;> first | (split at h <;> simp_all) | simp_all

theorem costHandler.initOptions_ok (opts : List udf.Option)
    (h : ∀ opt ∈ opts, opt.wellTyped = true) (a : costHandler) :
    ∃ a1, a.initOptions opts = .ok a1 := by
  induction opts generalizing a with
  | nil => exact ⟨a, rfl⟩
  | cons opt rest ih =>
    obtain ⟨a1, h1⟩ := a.initOption_ok opt (h opt (List.mem_cons_self _ _))
    obtain ⟨a2, h2⟩ := ih (fun o ho => h o (List.mem_cons_of_mem _ ho)) a1
    exact ⟨a2, by simp [costHandler.initOptions, h1, h2]⟩

theorem costHandler.Init_eq (a : costHandler) (r : udf.InitRequest) (a1 : costHandler)
    (h : a.initOptions r.Options = .ok a1) : a.Init r = .ok (a1, a1.validate, none) := by
  simp [costHandler.Init, h]

theorem costHandler.Init_ok (a : costHandler) (r : udf.InitRequest) (a1 : costHandler)
    (resp : udf.InitResponse) (e : error) (h : a.Init r = .ok (a1, resp, e)) :
    a.initOptions r.Options = .ok a1 ∧ resp = a1.validate ∧ e = none := by
  unfold costHandler.Init at h
  split at h
  · cases h
  · rename_i a2 h2
    simp only [Except.ok.injEq, Prod.mk.injEq] at h
    obtain ⟨rfl, rfl, rfl⟩ := h
    exact ⟨h2, rfl, rfl⟩

theorem costHandler.initOption_unrecognised (a : costHandler) (opt : udf.Option)
    (h1 : opt.Name ≠ "hourly_cost") (h2 : opt.Name ≠ "total_cpu")
    (h3 : opt.Name ≠ "total_memory") : a.initOption opt = .ok a := by
  simp [costHandler.initOption, h1, h2, h3]

/-- The call of `Init` that supplies the three settings once each, well typed. -/
theorem costHandler.Init_three (ag : agent.Agent) (d : ℚ) (c m : Int) :
    (newCostHandler ag).Init ⟨[⟨"hourly_cost", [.DoubleValue d]⟩,
        ⟨"total_cpu", [.IntValue c]⟩, ⟨"total_memory", [.IntValue m]⟩]⟩
      = .ok (⟨float64.toInt d, c, m, ag⟩, (⟨float64.toInt d, c, m, ag⟩ : costHandler).validate,
          none) := by
  simp [costHandler.Init, costHandler.initOptions, costHandler.initOption, firstDouble,
    firstInt, newCostHandler]

/-! ## The cost formula and the stored hourly cost -/

/-- C1, evaluated where the code departs from it.  On a fresh handler, `Init` with
`hourly_cost = 10.5`, `total_cpu = 4000`, `total_memory = 8192` succeeds but stores the
hourly cost `10`; the point with `cpu.value = 2000`, `memory.value = 4096`,
`uptime.value = 36000000` is then sent with `cpu_cost = memory_cost = 5`, whereas the
formula over the supplied hourly cost gives `21/4 = 5.25` for both.  With
`hourly_cost = 0.5` the stored value is `0` and `Init` fails with the hourly-cost
message. -/
theorem Init_Point_hourly_cost_fraction_lost :
    (newCostHandler ⟨[]⟩).Init ⟨[⟨"hourly_cost", [.DoubleValue (21 / 2)]⟩,
        ⟨"total_cpu", [.IntValue 4000]⟩, ⟨"total_memory", [.IntValue 8192]⟩]⟩
      = .ok (⟨10, 4000, 8192, ⟨[]⟩⟩, ⟨true, ""⟩, none) ∧
    ((⟨10, 4000, 8192, ⟨[]⟩⟩ : costHandler).Point
        ⟨7, "usage", "", "", "", [], [("host", "a")], [],
          [("cpu.value", 2000), ("memory.value", 4096), ("uptime.value", 36000000)], []⟩)
      = (⟨10, 4000, 8192, ⟨[.Response_Point
          ⟨7, "usage", "", "", "", [], [("host", "a")],
            [("cpu_cost", .fin 5), ("memory_cost", .fin 5)], [], []⟩]⟩⟩, none) ∧
    ((36000000 : ℚ) / 36000000 * (21 / 2)) * (2000 / 4000) = 21 / 4 ∧
    ((36000000 : ℚ) / 36000000 * (21 / 2)) * (4096 / 8192) = 21 / 4 ∧
    float64.fin 5 ≠ float64.fin (21 / 4) ∧
    (newCostHandler ⟨[]⟩).Init ⟨[⟨"hourly_cost", [.DoubleValue (1 / 2)]⟩,
        ⟨"total_cpu", [.IntValue 4000]⟩, ⟨"total_memory", [.IntValue 8192]⟩]⟩
      = .ok (⟨0, 4000, 8192, ⟨[]⟩⟩, ⟨false, msgHourlyCost⟩, none) := by
  have h10 : float64.toInt (21 / 2) = 10 :=
    float64.toInt_eq _ _ (by norm_num) (by norm_num) (by norm_num) (by norm_num)
  have h0 : float64.toInt 2⁻¹ = 0 :=
    float64.toInt_eq _ _ (by norm_num) (by norm_num) (by norm_num) (by norm_num)
  refine ⟨?_, ?_, by norm_num, by norm_num, ?_, ?_⟩
  · simp [costHandler.Init, costHandler.initOptions, costHandler.initOption, firstDouble,
      firstInt, h10, newCostHandler, costHandler.validate]
  · simp only [costHandler.Point, List.nil_append]
    rw [costHandler.costPoint_eq,
      costHandler.costPoint_scenario _ _ (by decide) (by decide) (by decide)]
  · intro h
    injection h with h
    norm_num at h
  · simp [costHandler.Init, costHandler.initOptions, costHandler.initOption, firstDouble,
      firstInt, h0, newCostHandler, costHandler.validate]

/-! ## The outcome of `Init` -/

/-- C2, evaluated where the code departs from it.  On a fresh handler, `Init` with the
well-typed entries `hourly_cost = 0.75`, `total_cpu = 4000`, `total_memory = 8192`
returns `Success = false` with the hourly-cost message and the Go error `nil`,
although the three values extracted from the entries, `0.75`, `4000` and `8192`, are
all non-zero: the hourly cost is stored as `int(0.75) = 0` and the check is made on
the stored integer. -/
theorem Init_rejects_fractional_hourly_cost :
    (∀ opt ∈ ([⟨"hourly_cost", [.DoubleValue (3 / 4)]⟩, ⟨"total_cpu", [.IntValue 4000]⟩,
        ⟨"total_memory", [.IntValue 8192]⟩] : List udf.Option), opt.wellTyped = true) ∧
    (newCostHandler ⟨[]⟩).Init ⟨[⟨"hourly_cost", [.DoubleValue (3 / 4)]⟩,
        ⟨"total_cpu", [.IntValue 4000]⟩, ⟨"total_memory", [.IntValue 8192]⟩]⟩
      = .ok (⟨0, 4000, 8192, ⟨[]⟩⟩, ⟨false, msgHourlyCost⟩, none) ∧
    firstDouble ⟨"hourly_cost", [.DoubleValue (3 / 4)]⟩ = .ok (3 / 4) ∧ (3 / 4 : ℚ) ≠ 0 ∧
    firstInt ⟨"total_cpu", [.IntValue 4000]⟩ = .ok 4000 ∧ (4000 : Int) ≠ 0 ∧
    firstInt ⟨"total_memory", [.IntValue 8192]⟩ = .ok 8192 ∧ (8192 : Int) ≠ 0 := by
  have h0 : float64.toInt (3 / 4) = 0 :=
    float64.toInt_eq _ _ (by norm_num) (by norm_num) (by norm_num) (by norm_num)
  refine ⟨by simp [udf.Option.wellTyped], ?_, rfl, by norm_num, rfl, by decide, rfl,
    by decide⟩
  rw [costHandler.Init_three, h0]
  simp [costHandler.validate]

/-- C3, evaluated where the code departs from it.  On a fresh handler, `Init` is given
`hourly_cost = 0.25` and `total_memory = 8192`, so that `total_cpu` is the one setting
missing.  The error string is not the CPU message alone: it is the hourly-cost
message followed by the CPU message, the hourly cost being reported missing although
it is present, because it is stored as `int(0.25) = 0`. -/
theorem Init_reports_present_hourly_cost_missing :
    (newCostHandler ⟨[]⟩).Init ⟨[⟨"hourly_cost", [.DoubleValue (1 / 4)]⟩,
        ⟨"total_memory", [.IntValue 8192]⟩]⟩
      = .ok (⟨0, 0, 8192, ⟨[]⟩⟩, ⟨false, msgHourlyCost ++ msgTotalCpu⟩, none) ∧
    firstDouble ⟨"hourly_cost", [.DoubleValue (1 / 4)]⟩ = .ok (1 / 4) ∧ (1 / 4 : ℚ) ≠ 0 ∧
    msgHourlyCost ++ msgTotalCpu ≠ msgTotalCpu ∧
    mentions (msgHourlyCost ++ msgTotalCpu) msgHourlyCost := by
  have h0 : float64.toInt 4⁻¹ = 0 :=
    float64.toInt_eq _ _ (by norm_num) (by norm_num) (by norm_num) (by norm_num)
  refine ⟨?_, rfl, by norm_num, by decide,
    ⟨[], msgTotalCpu.data, by simp [String.data_append]⟩⟩
  simp [costHandler.Init, costHandler.initOptions, costHandler.initOption, firstDouble,
    firstInt, h0, newCostHandler, costHandler.validate]

/-! ## The end-to-end scenario -/

/-- C4.  `Init` on a fresh handler with `hourly_cost = 10.0`, `total_cpu = 4000`,
`total_memory = 8192` succeeds; a following `Point` whose integer fields are
`cpu.value = 2000`, `memory.value = 4096`, `uptime.value = 36000000` sends a point
whose floating-point map is exactly `cpu_cost = 5`, `memory_cost = 5`; the
intermediate values are `hourly_uptime = 1` and `uptime_cost = 10`. -/
theorem end_to_end_scenario (ag : agent.Agent) (p : udf.Point)
    (hcpu : mapIndex p.FieldsInt "cpu.value" = 2000)
    (hmem : mapIndex p.FieldsInt "memory.value" = 4096)
    (hup : mapIndex p.FieldsInt "uptime.value" = 36000000) :
    ∃ a1, (newCostHandler ag).Init ⟨[⟨"hourly_cost", [.DoubleValue 10]⟩,
        ⟨"total_cpu", [.IntValue 4000]⟩, ⟨"total_memory", [.IntValue 8192]⟩]⟩
          = .ok (a1, ⟨true, ""⟩, none) ∧
      (∃ q, a1.Point p = ({ a1 with agent := ⟨ag.Responses ++ [.Response_Point q]⟩ }, none) ∧
        q.FieldsDouble = [("cpu_cost", .fin 5), ("memory_cost", .fin 5)]) ∧
      (float64.ofInt (mapIndex p.FieldsInt "uptime.value")).div (float64.ofInt 36000000)
        = .fin 1 ∧
      ((float64.ofInt (mapIndex p.FieldsInt "uptime.value")).div
        (float64.ofInt 36000000)).mul (float64.ofInt a1.hourly_cost) = .fin 10 := by
  have h10 : float64.toInt 10 = 10 :=
    float64.toInt_eq _ _ (by norm_num) (by norm_num) (by norm_num) (by norm_num)
  refine ⟨⟨10, 4000, 8192, ag⟩, ?_, ⟨_, rfl, ?_⟩, ?_, ?_⟩
  · simp [costHandler.Init, costHandler.initOptions, costHandler.initOption, firstDouble,
      firstInt, h10, newCostHandler, costHandler.validate]
  · exact costHandler.costPoint_scenario ag p hcpu hmem hup
  · rw [hup, float64.div_ofInt _ _ (by decide)]
    simp only [Int.cast_ofNat, float64.round_ofNat 36000000 (by norm_num)]
    rw [div_self (by norm_num), float64.round_one]
  · rw [hup, float64.div_ofInt _ _ (by decide)]
    simp only [Int.cast_ofNat, float64.round_ofNat 36000000 (by norm_num), float64.ofInt,
      float64.mul_fin, float64.round_ofNat 10 (by norm_num)]
    rw [div_self (by norm_num), float64.round_one, one_mul,
      float64.round_ofNat 10 (by norm_num)]

/-- The witness of C4: a point carrying exactly the three integer fields. -/
theorem end_to_end_scenario_witness :
    (mapIndex [("cpu.value", 2000), ("memory.value", 4096), ("uptime.value", 36000000)]
        "cpu.value" = 2000 ∧
      mapIndex [("cpu.value", 2000), ("memory.value", 4096), ("uptime.value", 36000000)]
        "memory.value" = 4096 ∧
      mapIndex [("cpu.value", 2000), ("memory.value", 4096), ("uptime.value", 36000000)]
        "uptime.value" = 36000000) ∧
    ∃ a1, (newCostHandler ⟨[]⟩).Init ⟨[⟨"hourly_cost", [.DoubleValue 10]⟩,
        ⟨"total_cpu", [.IntValue 4000]⟩, ⟨"total_memory", [.IntValue 8192]⟩]⟩
          = .ok (a1, ⟨true, ""⟩, none) ∧
      (∃ q, a1.Point ⟨7, "usage", "", "", "", [], [("host", "a")], [],
          [("cpu.value", 2000), ("memory.value", 4096), ("uptime.value", 36000000)], []⟩
          = ({ a1 with agent := ⟨[] ++ [.Response_Point q]⟩ }, none) ∧
        q.FieldsDouble = [("cpu_cost", .fin 5), ("memory_cost", .fin 5)]) ∧
      (float64.ofInt (mapIndex [("cpu.value", 2000), ("memory.value", 4096),
          ("uptime.value", 36000000)] "uptime.value")).div (float64.ofInt 36000000)
        = .fin 1 ∧
      ((float64.ofInt (mapIndex [("cpu.value", 2000), ("memory.value", 4096),
          ("uptime.value", 36000000)] "uptime.value")).div
        (float64.ofInt 36000000)).mul (float64.ofInt a1.hourly_cost) = .fin 10 :=
  ⟨by decide,
   end_to_end_scenario ⟨[]⟩
    ⟨7, "usage", "", "", "", [], [("host", "a")], [],
      [("cpu.value", 2000), ("memory.value", 4096), ("uptime.value", 36000000)], []⟩
    (by decide) (by decide) (by decide)⟩

/-! ## What `Point` keeps, clears and sends -/

/-- C5.  Whatever the handler state and the input point, the point sent by `Point`
has an empty integer field map and an empty string field map, and its time, tags,
name, database, retention policy, group and dimensions are those of the input: it is
the input with only the three field maps replaced. -/
theorem Point_clears_fields_keeps_identity (a : costHandler) (p : udf.Point) :
    ∃ q, (a.Point p).1.agent.Responses = a.agent.Responses ++ [.Response_Point q] ∧
      q.FieldsInt = [] ∧ q.FieldsString = [] ∧
      q.Tags = p.Tags ∧ q.Time = p.Time ∧ q.Name = p.Name ∧ q.Database = p.Database ∧
      q.RetentionPolicy = p.RetentionPolicy ∧ q.Group = p.Group ∧
      q.Dimensions = p.Dimensions ∧
      q = { p with FieldsDouble := q.FieldsDouble, FieldsInt := [], FieldsString := [] } :=
  ⟨a.costPoint p, rfl, rfl, rfl, rfl, rfl, rfl, rfl, rfl, rfl, rfl, rfl⟩

theorem costHandler.Point_settings (a : costHandler) (p : udf.Point) :
    (a.Point p).1.hourly_cost = a.hourly_cost ∧ (a.Point p).1.total_cpu = a.total_cpu ∧
    (a.Point p).1.total_memory = a.total_memory := ⟨rfl, rfl, rfl⟩

/-- C6.  Every call of `Point` appends exactly one response to the channel, the input
transformed, leaves the settings alone and returns `nil`; hence processing the points
`ps` in order leaves the channel extended by the transformed points, one per input, in
the same order, and every call returns `nil`. -/
theorem Points_responses_in_order (a : costHandler) (ps : List udf.Point) :
    (∀ p, a.Point p =
      ({ a with agent := ⟨a.agent.Responses ++ [.Response_Point (a.costPoint p)]⟩ }, none)) ∧
    (a.Points ps).1.agent.Responses =
      a.agent.Responses ++ ps.map (fun p => .Response_Point (a.costPoint p)) ∧
    (a.Points ps).2 = ps.map (fun _ => none) ∧
    (a.Points ps).1.hourly_cost = a.hourly_cost ∧
    (a.Points ps).1.total_cpu = a.total_cpu ∧
    (a.Points ps).1.total_memory = a.total_memory := by
  refine ⟨fun _ => rfl, ?_⟩
  induction ps generalizing a with
  | nil => simp [costHandler.Points]
  | cons p ps ih =>
    obtain ⟨h1, h2, h3, h4, h5⟩ := ih (a.Point p).1
    have hc : ∀ q, (a.Point p).1.costPoint q = a.costPoint q :=
      fun q => costHandler.costPoint_congr _ _ q rfl rfl rfl
    simp only [costHandler.Points, List.map_cons]
    refine ⟨?_, by rw [h2]; rfl, h3, h4, h5⟩
    rw [h1]
    simp only [hc]
    simp [costHandler.Point]

/-! ## Batching is rejected -/

theorem costHandler.batches_eq (a : costHandler) (ms : List BatchMessage) :
    a.batches ms = a := by
  induction ms with
  | nil => rfl
  | cons m ms ih =>
    cases m <;> simpa [costHandler.batches, costHandler.batch, costHandler.BeginBatch,
      costHandler.EndBatch] using ih

/-- C7.  In every handler state and for every argument, `BeginBatch` and `EndBatch`
return a non-nil error and leave the handler, its settings and its response channel,
as it was; so after any sequence of batch messages the handler is unchanged and
`Point` does exactly what it would have done without them. -/
theorem batch_rejected_handler_unchanged (a : costHandler) (b : udf.BeginBatch)
    (e : udf.EndBatch) (ms : List BatchMessage) (p : udf.Point) :
    (a.BeginBatch b).2 ≠ none ∧ (a.BeginBatch b).1 = a ∧
    (a.EndBatch e).2 ≠ none ∧ (a.EndBatch e).1 = a ∧
    (∀ m, (a.batch m).2 ≠ none ∧ (a.batch m).1 = a) ∧
    a.batches ms = a ∧ (a.batches ms).Point p = a.Point p := by
  refine ⟨by simp [costHandler.BeginBatch], rfl, by simp [costHandler.EndBatch], rfl, ?_,
    a.batches_eq ms, by rw [a.batches_eq ms]⟩
  intro m
  cases m <;> simp [costHandler.batch, costHandler.BeginBatch, costHandler.EndBatch]

/-! ## A successful `Init` excludes division by zero -/

/-- C8.  From any prior handler state and for any option list, if `Init` returns with
`Success = true` then the stored hourly cost, CPU total and memory total are non-zero
afterwards; the two divisors of `Point` are then non-zero and both costs of every
point are finite. -/
theorem Init_success_totals_nonzero (a : costHandler) (r : udf.InitRequest)
    (a1 : costHandler) (resp : udf.InitResponse) (e : error)
    (h : a.Init r = .ok (a1, resp, e)) (hs : resp.Success = true) :
    a1.hourly_cost ≠ 0 ∧ a1.total_cpu ≠ 0 ∧ a1.total_memory ≠ 0 ∧
    float64.ofInt a1.total_cpu ≠ .fin 0 ∧ float64.ofInt a1.total_memory ≠ .fin 0 ∧
    ∀ p, ∃ c m : ℚ,
      (a1.costPoint p).FieldsDouble = [("cpu_cost", .fin c), ("memory_cost", .fin m)] := by
  obtain ⟨_, rfl, _⟩ := costHandler.Init_ok a r a1 resp e h
  obtain ⟨h1, h2, h3⟩ := a1.validate_Success.mp hs
  refine ⟨h1, h2, h3, ?_, ?_, fun p => ⟨_, _, a1.costPoint_FieldsDouble p h2 h3⟩⟩
  · intro hz
    simp only [float64.ofInt, float64.fin.injEq] at hz
    exact float64.round_ne_zero _ (by exact_mod_cast h2) hz
  · intro hz
    simp only [float64.ofInt, float64.fin.injEq] at hz
    exact float64.round_ne_zero _ (by exact_mod_cast h3) hz

/-- The witness of C8: a handler holding stale settings is fully reconfigured. -/
theorem Init_success_totals_nonzero_witness :
    ((⟨0, 0, 7, ⟨[]⟩⟩ : costHandler).Init ⟨[⟨"hourly_cost", [.DoubleValue 10]⟩,
        ⟨"total_cpu", [.IntValue 4000]⟩]⟩ = .ok (⟨10, 4000, 7, ⟨[]⟩⟩, ⟨true, ""⟩, none) ∧
      (⟨true, ""⟩ : udf.InitResponse).Success = true) ∧
    ((⟨10, 4000, 7, ⟨[]⟩⟩ : costHandler).hourly_cost ≠ 0 ∧
      (⟨10, 4000, 7, ⟨[]⟩⟩ : costHandler).total_cpu ≠ 0 ∧
      (⟨10, 4000, 7, ⟨[]⟩⟩ : costHandler).total_memory ≠ 0 ∧
      float64.ofInt (⟨10, 4000, 7, ⟨[]⟩⟩ : costHandler).total_cpu ≠ .fin 0 ∧
      float64.ofInt (⟨10, 4000, 7, ⟨[]⟩⟩ : costHandler).total_memory ≠ .fin 0 ∧
      ∀ p, ∃ c m : ℚ, ((⟨10, 4000, 7, ⟨[]⟩⟩ : costHandler).costPoint p).FieldsDouble
        = [("cpu_cost", .fin c), ("memory_cost", .fin m)]) := by
  have h10 : float64.toInt 10 = 10 :=
    float64.toInt_eq _ _ (by norm_num) (by norm_num) (by norm_num) (by norm_num)
  have hi : (⟨0, 0, 7, ⟨[]⟩⟩ : costHandler).Init ⟨[⟨"hourly_cost", [.DoubleValue 10]⟩,
      ⟨"total_cpu", [.IntValue 4000]⟩]⟩ = .ok (⟨10, 4000, 7, ⟨[]⟩⟩, ⟨true, ""⟩, none) := by
    simp [costHandler.Init, costHandler.initOptions, costHandler.initOption, firstDouble,
      firstInt, h10, costHandler.validate]
  exact ⟨⟨hi, rfl⟩, Init_success_totals_nonzero _ _ _ _ _ hi rfl⟩

/-! ## `Init` writes the settings while it reads the options -/

/-- What one iteration of the loop does to the handler when it does not panic. -/
theorem costHandler.initOption_effect (a a1 : costHandler) (opt : udf.Option)
    (h : a.initOption opt = .ok a1) :
    a1.agent = a.agent ∧
    (opt.Name ≠ "hourly_cost" → a1.hourly_cost = a.hourly_cost) ∧
    (opt.Name ≠ "total_cpu" → a1.total_cpu = a.total_cpu) ∧
    (opt.Name ≠ "total_memory" → a1.total_memory = a.total_memory) ∧
    (opt.Name = "hourly_cost" → ∀ d vs, opt.Values = .DoubleValue d :: vs →
      a1.hourly_cost = float64.toInt d) ∧
    (opt.Name = "total_cpu" → ∀ i vs, opt.Values = .IntValue i :: vs → a1.total_cpu = i) ∧
    (opt.Name = "total_memory" → ∀ i vs, opt.Values = .IntValue i :: vs →
      a1.total_memory = i) := by
  unfold costHandler.initOption at h
  by_cases n1 : opt.Name = "hourly_cost"
  · rw [if_pos n1] at h
    have n2 : opt.Name ≠ "total_cpu" := by rw [n1]; decide
    have n3 : opt.Name ≠ "total_memory" := by rw [n1]; decide
    cases hd : firstDouble opt with
    | error x => rw [hd] at h; cases h
    | ok d0 =>
      rw [hd] at h
      cases h
      refine ⟨rfl, fun c => absurd n1 c, fun _ => rfl, fun _ => rfl, ?_,
        fun c => absurd c n2, fun c => absurd c n3⟩
      intro _ d vs hv
      simp [firstDouble, hv] at hd
      simp [hd]
  · rw [if_neg n1] at h
    by_cases n2 : opt.Name = "total_cpu"
    · rw [if_pos n2] at h
      have n3 : opt.Name ≠ "total_memory" := by rw [n2]; decide
      cases hd : firstInt opt with
      | error x => rw [hd] at h; cases h
      | ok i0 =>
        rw [hd] at h
        cases h
        refine ⟨rfl, fun _ => rfl, fun c => absurd n2 c, fun _ => rfl,
          fun c => absurd c n1, ?_, fun c => absurd c n3⟩
        intro _ i vs hv
        simp [firstInt, hv] at hd
        simp [hd]
    · rw [if_neg n2] at h
      by_cases n3 : opt.Name = "total_memory"
      · rw [if_pos n3] at h
        cases hd : firstInt opt with
        | error x => rw [hd] at h; cases h
        | ok i0 =>
          rw [hd] at h
          cases h
          refine ⟨rfl, fun _ => rfl, fun _ => rfl, fun c => absurd n3 c,
            fun c => absurd c n1, fun c => absurd c n2, ?_⟩
          intro _ i vs hv
          simp [firstInt, hv] at hd
          simp [hd]
      · rw [if_neg n3] at h
        cases h
        exact ⟨rfl, fun _ => rfl, fun _ => rfl, fun _ => rfl,
          fun c => absurd c n1, fun c => absurd c n2, fun c => absurd c n3⟩

/-- The loop leaves the channel alone and keeps every setting that no entry names. -/
theorem costHandler.initOptions_keeps (opts : List udf.Option) (a a1 : costHandler)
    (h : a.initOptions opts = .ok a1) :
    a1.agent = a.agent ∧
    ((∀ opt ∈ opts, opt.Name ≠ "hourly_cost") → a1.hourly_cost = a.hourly_cost) ∧
    ((∀ opt ∈ opts, opt.Name ≠ "total_cpu") → a1.total_cpu = a.total_cpu) ∧
    ((∀ opt ∈ opts, opt.Name ≠ "total_memory") → a1.total_memory = a.total_memory) := by
  induction opts generalizing a with
  | nil => cases h; exact ⟨rfl, fun _ => rfl, fun _ => rfl, fun _ => rfl⟩
  | cons opt rest ih =>
    unfold costHandler.initOptions at h
    cases hb : a.initOption opt with
    | error x => rw [hb] at h; cases h
    | ok b =>
      rw [hb] at h
      obtain ⟨e0, e1, e2, e3, _⟩ := costHandler.initOption_effect a b opt hb
      obtain ⟨i0, i1, i2, i3⟩ := ih b h
      refine ⟨i0.trans e0, ?_, ?_, ?_⟩
      · intro hn
        rw [i1 (fun o ho => hn o (List.mem_cons_of_mem _ ho)),
          e1 (hn opt (List.mem_cons_self _ _))]
      · intro hn
        rw [i2 (fun o ho => hn o (List.mem_cons_of_mem _ ho)),
          e2 (hn opt (List.mem_cons_self _ _))]
      · intro hn
        rw [i3 (fun o ho => hn o (List.mem_cons_of_mem _ ho)),
          e3 (hn opt (List.mem_cons_self _ _))]

/-- The loop over a concatenation is the loop over the first part followed by the
loop over the second. -/
theorem costHandler.initOptions_append (pre rest : List udf.Option) (a a1 : costHandler)
    (h : a.initOptions (pre ++ rest) = .ok a1) :
    ∃ b, a.initOptions pre = .ok b ∧ b.initOptions rest = .ok a1 := by
  induction pre generalizing a with
  | nil => exact ⟨a, rfl, h⟩
  | cons opt pre ih =>
    simp only [List.cons_append, costHandler.initOptions] at h ⊢
    cases hb : a.initOption opt with
    | error x => rw [hb] at h; cases h
    | ok b => rw [hb] at h; exact ih b h

/-- The last entry naming a setting decides its stored value. -/
theorem costHandler.initOptions_last (pre post : List udf.Option) (opt : udf.Option)
    (a a1 : costHandler) (h : a.initOptions (pre ++ opt :: post) = .ok a1) :
    (opt.Name = "hourly_cost" → (∀ o ∈ post, o.Name ≠ "hourly_cost") →
      ∀ d vs, opt.Values = .DoubleValue d :: vs → a1.hourly_cost = float64.toInt d) ∧
    (opt.Name = "total_cpu" → (∀ o ∈ post, o.Name ≠ "total_cpu") →
      ∀ i vs, opt.Values = .IntValue i :: vs → a1.total_cpu = i) ∧
    (opt.Name = "total_memory" → (∀ o ∈ post, o.Name ≠ "total_memory") →
      ∀ i vs, opt.Values = .IntValue i :: vs → a1.total_memory = i) := by
  obtain ⟨b, _, hb⟩ := costHandler.initOptions_append pre (opt :: post) a a1 h
  unfold costHandler.initOptions at hb
  cases hc : b.initOption opt with
  | error x => rw [hc] at hb; cases hb
  | ok c =>
    rw [hc] at hb
    obtain ⟨_, _, _, _, e1, e2, e3⟩ := costHandler.initOption_effect b c opt hc
    obtain ⟨_, k1, k2, k3⟩ := costHandler.initOptions_keeps post c a1 hb
    exact ⟨fun hn hp d vs hv => (k1 hp).trans (e1 hn d vs hv),
      fun hn hp i vs hv => (k2 hp).trans (e2 hn i vs hv),
      fun hn hp i vs hv => (k3 hp).trans (e3 hn i vs hv)⟩

/-- C9, refuted as stated: on a fresh handler, `Init` with the single option
`total_cpu = 4000` fails (hourly cost and memory total are missing), yet the stored
CPU total is `4000` afterwards and was `0` before; so a failing `Init` does not leave
the stored settings as they were. -/
theorem Init_failure_changes_settings :
    (newCostHandler ⟨[]⟩).Init ⟨[⟨"total_cpu", [.IntValue 4000]⟩]⟩
      = .ok (⟨0, 4000, 0, ⟨[]⟩⟩, ⟨false, msgHourlyCost ++ msgTotalMemory⟩, none) ∧
    (newCostHandler ⟨[]⟩).total_cpu = 0 ∧
    ¬ (∀ (a : costHandler) (r : udf.InitRequest) (a1 : costHandler)
        (resp : udf.InitResponse) (e : error),
        a.Init r = .ok (a1, resp, e) → resp.Success = false →
        a1.hourly_cost = a.hourly_cost ∧ a1.total_cpu = a.total_cpu ∧
        a1.total_memory = a.total_memory) := by
  have hi : (newCostHandler ⟨[]⟩).Init ⟨[⟨"total_cpu", [.IntValue 4000]⟩]⟩
      = .ok (⟨0, 4000, 0, ⟨[]⟩⟩, ⟨false, msgHourlyCost ++ msgTotalMemory⟩, none) := by
    simp [costHandler.Init, costHandler.initOptions, costHandler.initOption, firstInt,
      newCostHandler, costHandler.validate]
  refine ⟨hi, rfl, fun hall => ?_⟩
  have h2 := (hall _ _ _ _ _ hi rfl).2.1
  simp [newCostHandler] at h2

/-- C9, amended.  When `Init` returns with `Success = false`, the response channel is
as before and every stored setting that no entry of the option list names has the
value it had before the call; a setting that an entry names has been overwritten all
the same, by the first value of the last entry naming it (the hourly cost with its
fraction discarded). -/
theorem Init_failure_keeps_unnamed_settings (a : costHandler) (r : udf.InitRequest)
    (a1 : costHandler) (resp : udf.InitResponse) (e : error)
    (h : a.Init r = .ok (a1, resp, e)) (_hs : resp.Success = false) :
    a1.agent = a.agent ∧
    ((∀ opt ∈ r.Options, opt.Name ≠ "hourly_cost") → a1.hourly_cost = a.hourly_cost) ∧
    ((∀ opt ∈ r.Options, opt.Name ≠ "total_cpu") → a1.total_cpu = a.total_cpu) ∧
    ((∀ opt ∈ r.Options, opt.Name ≠ "total_memory") → a1.total_memory = a.total_memory) ∧
    (∀ pre opt post, r.Options = pre ++ opt :: post →
      (opt.Name = "hourly_cost" → (∀ o ∈ post, o.Name ≠ "hourly_cost") →
        ∀ d vs, opt.Values = .DoubleValue d :: vs → a1.hourly_cost = float64.toInt d) ∧
      (opt.Name = "total_cpu" → (∀ o ∈ post, o.Name ≠ "total_cpu") →
        ∀ i vs, opt.Values = .IntValue i :: vs → a1.total_cpu = i) ∧
      (opt.Name = "total_memory" → (∀ o ∈ post, o.Name ≠ "total_memory") →
        ∀ i vs, opt.Values = .IntValue i :: vs → a1.total_memory = i)) := by
  obtain ⟨h1, _, _⟩ := costHandler.Init_ok a r a1 resp e h
  obtain ⟨k0, k1, k2, k3⟩ := costHandler.initOptions_keeps r.Options a a1 h1
  refine ⟨k0, k1, k2, k3, fun pre opt post hr => ?_⟩
  rw [hr] at h1
  exact costHandler.initOptions_last pre post opt a a1 h1

/-- The witness of C9 amended: the failing call that supplies only `total_cpu`. -/
theorem Init_failure_keeps_unnamed_settings_witness :
    ((newCostHandler ⟨[]⟩).Init ⟨[⟨"total_cpu", [.IntValue 4000]⟩]⟩
        = .ok (⟨0, 4000, 0, ⟨[]⟩⟩, ⟨false, msgHourlyCost ++ msgTotalMemory⟩, none) ∧
      (⟨false, msgHourlyCost ++ msgTotalMemory⟩ : udf.InitResponse).Success = false) ∧
    ((⟨0, 4000, 0, ⟨[]⟩⟩ : costHandler).agent = (newCostHandler ⟨[]⟩).agent ∧
      ((∀ opt ∈ (⟨[⟨"total_cpu", [.IntValue 4000]⟩]⟩ : udf.InitRequest).Options,
          opt.Name ≠ "hourly_cost") →
        (⟨0, 4000, 0, ⟨[]⟩⟩ : costHandler).hourly_cost = (newCostHandler ⟨[]⟩).hourly_cost) ∧
      ((∀ opt ∈ (⟨[⟨"total_cpu", [.IntValue 4000]⟩]⟩ : udf.InitRequest).Options,
          opt.Name ≠ "total_cpu") →
        (⟨0, 4000, 0, ⟨[]⟩⟩ : costHandler).total_cpu = (newCostHandler ⟨[]⟩).total_cpu) ∧
      ((∀ opt ∈ (⟨[⟨"total_cpu", [.IntValue 4000]⟩]⟩ : udf.InitRequest).Options,
          opt.Name ≠ "total_memory") →
        (⟨0, 4000, 0, ⟨[]⟩⟩ : costHandler).total_memory
          = (newCostHandler ⟨[]⟩).total_memory) ∧
      (∀ pre opt post,
        (⟨[⟨"total_cpu", [.IntValue 4000]⟩]⟩ : udf.InitRequest).Options
          = pre ++ opt :: post →
        (opt.Name = "hourly_cost" → (∀ o ∈ post, o.Name ≠ "hourly_cost") →
          ∀ d vs, opt.Values = .DoubleValue d :: vs →
            (⟨0, 4000, 0, ⟨[]⟩⟩ : costHandler).hourly_cost = float64.toInt d) ∧
        (opt.Name = "total_cpu" → (∀ o ∈ post, o.Name ≠ "total_cpu") →
          ∀ i vs, opt.Values = .IntValue i :: vs →
            (⟨0, 4000, 0, ⟨[]⟩⟩ : costHandler).total_cpu = i) ∧
        (opt.Name = "total_memory" → (∀ o ∈ post, o.Name ≠ "total_memory") →
          ∀ i vs, opt.Values = .IntValue i :: vs →
            (⟨0, 4000, 0, ⟨[]⟩⟩ : costHandler).total_memory = i))) := by
  have hi : (newCostHandler ⟨[]⟩).Init ⟨[⟨"total_cpu", [.IntValue 4000]⟩]⟩
      = .ok (⟨0, 4000, 0, ⟨[]⟩⟩, ⟨false, msgHourlyCost ++ msgTotalMemory⟩, none) := by
    simp [costHandler.Init, costHandler.initOptions, costHandler.initOption, firstInt,
      newCostHandler, costHandler.validate]
  exact ⟨⟨hi, rfl⟩, Init_failure_keeps_unnamed_settings _ _ _ _ _ hi rfl⟩

/-! ## `Point` does not consult the outcome of `Init` -/

/-- C10, refuted as stated: on a fresh handler, `Init` with `total_cpu = 4000` and
`total_memory = 8192` but no hourly cost fails; a point delivered afterwards to
`Point` is nevertheless transformed (both costs are `0`, the integer and string maps
are cleared) and one response carrying it is sent, with the error `nil`. -/
theorem Point_after_failed_Init_sends :
    (newCostHandler ⟨[]⟩).Init
        ⟨[⟨"total_cpu", [.IntValue 4000]⟩, ⟨"total_memory", [.IntValue 8192]⟩]⟩
      = .ok (⟨0, 4000, 8192, ⟨[]⟩⟩, ⟨false, msgHourlyCost⟩, none) ∧
    ((⟨0, 4000, 8192, ⟨[]⟩⟩ : costHandler).Point
        ⟨7, "usage", "", "", "", [], [("host", "a")], [],
          [("cpu.value", 2000), ("memory.value", 4096), ("uptime.value", 36000000)],
          [("unit", "mc")]⟩)
      = (⟨0, 4000, 8192, ⟨[.Response_Point
          ⟨7, "usage", "", "", "", [], [("host", "a")],
            [("cpu_cost", .fin 0), ("memory_cost", .fin 0)], [], []⟩]⟩⟩, none) := by
  constructor
  · simp [costHandler.Init, costHandler.initOptions, costHandler.initOption, firstInt,
      newCostHandler, costHandler.validate]
  · simp only [costHandler.Point, List.nil_append]
    rw [costHandler.costPoint_eq,
      costHandler.costPoint_hourly_zero _ _ rfl (by decide) (by decide)]

/-- C10, amended.  `Point` does not consult the outcome of `Init`: when `Init` has
returned with `Success = false`, a point delivered afterwards is transformed with the
settings then stored and exactly one response carrying it is appended to the channel
(which `Init` left as it was), with the error `nil`; the point sent has empty integer
and string maps and a floating-point map with exactly the keys `cpu_cost` and
`memory_cost`. -/
theorem Point_after_failed_Init_still_transforms (a : costHandler) (r : udf.InitRequest)
    (a1 : costHandler) (resp : udf.InitResponse) (e : error)
    (h : a.Init r = .ok (a1, resp, e)) (_hs : resp.Success = false) (p : udf.Point) :
    a1.Point p =
      ({ a1 with agent := ⟨a.agent.Responses ++ [.Response_Point (a1.costPoint p)]⟩ },
        none) ∧
    (a1.costPoint p).FieldsInt = [] ∧ (a1.costPoint p).FieldsString = [] ∧
    (a1.costPoint p).FieldsDouble.map Prod.fst = ["cpu_cost", "memory_cost"] := by
  obtain ⟨h1, _, _⟩ := costHandler.Init_ok a r a1 resp e h
  obtain ⟨k0, _⟩ := costHandler.initOptions_keeps r.Options a a1 h1
  refine ⟨?_, rfl, rfl, rfl⟩
  rw [← k0]
  rfl

/-- The witness of C10 amended: the failing call without an hourly cost, then a
point. -/
theorem Point_after_failed_Init_still_transforms_witness :
    ((newCostHandler ⟨[]⟩).Init
        ⟨[⟨"total_cpu", [.IntValue 4000]⟩, ⟨"total_memory", [.IntValue 8192]⟩]⟩
        = .ok (⟨0, 4000, 8192, ⟨[]⟩⟩, ⟨false, msgHourlyCost⟩, none) ∧
      (⟨false, msgHourlyCost⟩ : udf.InitResponse).Success = false) ∧
    ((⟨0, 4000, 8192, ⟨[]⟩⟩ : costHandler).Point
        ⟨7, "usage", "", "", "", [], [], [], [("uptime.value", 36000000)], []⟩ =
      ({ (⟨0, 4000, 8192, ⟨[]⟩⟩ : costHandler) with
          agent := ⟨(newCostHandler ⟨[]⟩).agent.Responses ++
            [.Response_Point ((⟨0, 4000, 8192, ⟨[]⟩⟩ : costHandler).costPoint
              ⟨7, "usage", "", "", "", [], [], [], [("uptime.value", 36000000)], []⟩)]⟩ },
        none) ∧
      ((⟨0, 4000, 8192, ⟨[]⟩⟩ : costHandler).costPoint
        ⟨7, "usage", "", "", "", [], [], [], [("uptime.value", 36000000)], []⟩).FieldsInt
        = [] ∧
      ((⟨0, 4000, 8192, ⟨[]⟩⟩ : costHandler).costPoint
        ⟨7, "usage", "", "", "", [], [], [], [("uptime.value", 36000000)], []⟩).FieldsString
        = [] ∧
      ((⟨0, 4000, 8192, ⟨[]⟩⟩ : costHandler).costPoint
        ⟨7, "usage", "", "", "", [], [], [], [("uptime.value", 36000000)],
          []⟩).FieldsDouble.map Prod.fst = ["cpu_cost", "memory_cost"]) := by
  have hi : (newCostHandler ⟨[]⟩).Init
      ⟨[⟨"total_cpu", [.IntValue 4000]⟩, ⟨"total_memory", [.IntValue 8192]⟩]⟩
      = .ok (⟨0, 4000, 8192, ⟨[]⟩⟩, ⟨false, msgHourlyCost⟩, none) := by
    simp [costHandler.Init, costHandler.initOptions, costHandler.initOption, firstInt,
      newCostHandler, costHandler.validate]
  exact ⟨⟨hi, rfl⟩, Point_after_failed_Init_still_transforms _ _ _ _ _ hi rfl _⟩

/-! ## `Init` accepts every non-zero configuration -/

theorem float64.toInt_neg_one : float64.toInt (-1) = -1 := by
  have ht : float64.trunc (-1) = -1 := by
    unfold float64.trunc
    rw [if_neg (by norm_num), Int.ceil_eq_iff]
    norm_num
  rw [float64.toInt_of_trunc _ (by rw [ht]; norm_num) (by rw [ht]; norm_num), ht]

/-- C11, refuted as stated: on a fresh handler, `Init` with `hourly_cost = 10.0`,
`total_cpu = -1` and `total_memory = 8192` reports `Success = true` and stores the
negative CPU total; with `hourly_cost = -1.0` it succeeds as well and stores `-1`. -/
theorem Init_accepts_negative_settings :
    (newCostHandler ⟨[]⟩).Init ⟨[⟨"hourly_cost", [.DoubleValue 10]⟩,
        ⟨"total_cpu", [.IntValue (-1)]⟩, ⟨"total_memory", [.IntValue 8192]⟩]⟩
      = .ok (⟨10, -1, 8192, ⟨[]⟩⟩, ⟨true, ""⟩, none) ∧
    ¬ (0 < (⟨10, -1, 8192, ⟨[]⟩⟩ : costHandler).total_cpu) ∧
    (newCostHandler ⟨[]⟩).Init ⟨[⟨"hourly_cost", [.DoubleValue (-1)]⟩,
        ⟨"total_cpu", [.IntValue 4000]⟩, ⟨"total_memory", [.IntValue 8192]⟩]⟩
      = .ok (⟨-1, 4000, 8192, ⟨[]⟩⟩, ⟨true, ""⟩, none) := by
  have h10 : float64.toInt 10 = 10 :=
    float64.toInt_eq _ _ (by norm_num) (by norm_num) (by norm_num) (by norm_num)
  refine ⟨?_, by decide, ?_⟩
  · rw [costHandler.Init_three, h10]
    simp [costHandler.validate]
  · rw [costHandler.Init_three, float64.toInt_neg_one]
    simp [costHandler.validate]

/-- C11, amended.  Every configuration that `Init` accepts has non-zero settings, and
the sign is not examined: for every option list on which `Init` on a fresh handler
returns with `Success = true`, the stored hourly cost, CPU total and memory total are
all different from zero; conversely a call supplying an hourly cost whose integer
part is non-zero and any non-zero totals, negative ones included, is accepted with
exactly those values stored. -/
theorem Init_accepts_iff_nonzero (ag : agent.Agent) (r : udf.InitRequest)
    (a1 : costHandler) (resp : udf.InitResponse) (e : error)
    (h : (newCostHandler ag).Init r = .ok (a1, resp, e)) (hs : resp.Success = true) :
    (a1.hourly_cost ≠ 0 ∧ a1.total_cpu ≠ 0 ∧ a1.total_memory ≠ 0) ∧
    ∀ (d : ℚ) (c m : Int), float64.toInt d ≠ 0 → c ≠ 0 → m ≠ 0 →
      (newCostHandler ag).Init ⟨[⟨"hourly_cost", [.DoubleValue d]⟩,
          ⟨"total_cpu", [.IntValue c]⟩, ⟨"total_memory", [.IntValue m]⟩]⟩
        = .ok (⟨float64.toInt d, c, m, ag⟩, ⟨true, ""⟩, none) := by
  obtain ⟨_, rfl, _⟩ := costHandler.Init_ok _ r a1 resp e h
  refine ⟨a1.validate_Success.mp hs, fun d c m hd hc hm => ?_⟩
  rw [costHandler.Init_three]
  simp [costHandler.validate, hd, hc, hm]

/-- The witness of C11 amended: the accepted call with a negative CPU total. -/
theorem Init_accepts_iff_nonzero_witness :
    ((newCostHandler ⟨[]⟩).Init ⟨[⟨"hourly_cost", [.DoubleValue (-1)]⟩,
        ⟨"total_cpu", [.IntValue (-1)]⟩, ⟨"total_memory", [.IntValue 8192]⟩]⟩
        = .ok (⟨-1, -1, 8192, ⟨[]⟩⟩, ⟨true, ""⟩, none) ∧
      (⟨true, ""⟩ : udf.InitResponse).Success = true) ∧
    (((⟨-1, -1, 8192, ⟨[]⟩⟩ : costHandler).hourly_cost ≠ 0 ∧
        (⟨-1, -1, 8192, ⟨[]⟩⟩ : costHandler).total_cpu ≠ 0 ∧
        (⟨-1, -1, 8192, ⟨[]⟩⟩ : costHandler).total_memory ≠ 0) ∧
      ∀ (d : ℚ) (c m : Int), float64.toInt d ≠ 0 → c ≠ 0 → m ≠ 0 →
        (newCostHandler ⟨[]⟩).Init ⟨[⟨"hourly_cost", [.DoubleValue d]⟩,
            ⟨"total_cpu", [.IntValue c]⟩, ⟨"total_memory", [.IntValue m]⟩]⟩
          = .ok (⟨float64.toInt d, c, m, ⟨[]⟩⟩, ⟨true, ""⟩, none)) := by
  have hi : (newCostHandler ⟨[]⟩).Init ⟨[⟨"hourly_cost", [.DoubleValue (-1)]⟩,
      ⟨"total_cpu", [.IntValue (-1)]⟩, ⟨"total_memory", [.IntValue 8192]⟩]⟩
      = .ok (⟨-1, -1, 8192, ⟨[]⟩⟩, ⟨true, ""⟩, none) := by
    rw [costHandler.Init_three, float64.toInt_neg_one]
    simp [costHandler.validate]
  exact ⟨⟨hi, rfl⟩, Init_accepts_iff_nonzero _ _ _ _ _ hi rfl⟩

/-! ## The static capabilities: `Info`, `Snaphost`, `Restore` -/

/-- C12.  In every handler state `Info` returns the same response with the error
`nil` and leaves the handler as it was: `Wants` and `Provides` are `STREAM`, and the
option table has exactly the three keys `hourly_cost`, `total_cpu`, `total_memory`,
declared with the value types `[DOUBLE]`, `[INT]`, `[INT]`. -/
theorem Info_static (a b : costHandler) :
    a.Info.1 = a ∧ a.Info.2.2 = none ∧ a.Info.2.1 = b.Info.2.1 ∧
    a.Info.2.1.Wants = .STREAM ∧ a.Info.2.1.Provides = .STREAM ∧
    a.Info.2.1.Options.lookup "hourly_cost" = some ⟨[.DOUBLE]⟩ ∧
    a.Info.2.1.Options.lookup "total_cpu" = some ⟨[.INT]⟩ ∧
    a.Info.2.1.Options.lookup "total_memory" = some ⟨[.INT]⟩ ∧
    a.Info.2.1.Options.map Prod.fst = ["total_cpu", "total_memory", "hourly_cost"] ∧
    (∀ k, a.Info.2.1.Options.lookup k ≠ none ↔
      k = "hourly_cost" ∨ k = "total_cpu" ∨ k = "total_memory") := by
  refine ⟨rfl, rfl, rfl, rfl, rfl, by simp [costHandler.Info, List.lookup],
    by simp [costHandler.Info, List.lookup], by simp [costHandler.Info, List.lookup], rfl,
    fun k => ?_⟩
  simp only [costHandler.Info, List.lookup]
  by_cases h1 : k = "total_cpu"
  · subst h1; simp
  · by_cases h2 : k = "total_memory"
    · subst h2; simp
    · by_cases h3 : k = "hourly_cost"
      · subst h3; simp
      · have e1 : (k == "total_cpu") = false := by simpa using h1
        have e2 : (k == "total_memory") = false := by simpa using h2
        have e3 : (k == "hourly_cost") = false := by simpa using h3
        simp [e1, e2, e3, h1, h2, h3]

/-- C13.  In every handler state and for every restore request, `Snaphost` returns the
empty snapshot response with the error `nil`, `Restore` returns `Success = true` with
the error `nil`, and both leave the handler, its settings and its response channel,
as it was. -/
theorem Snaphost_Restore_inert (a : costHandler) (req : udf.RestoreRequest) :
    a.Snaphost = (a, ⟨[]⟩, none) ∧
    (a.Restore req).2.1.Success = true ∧ (a.Restore req).2.2 = none ∧
    (a.Restore req).1 = a ∧
    a.Snaphost.1.agent.Responses = a.agent.Responses ∧
    (a.Restore req).1.agent.Responses = a.agent.Responses :=
  ⟨rfl, rfl, rfl, rfl, rfl, rfl⟩

/-! ## Unrecognised option names -/

theorem udf.Option.recognised_eq_false (opt : udf.Option) (h : opt.recognised = false) :
    opt.Name ≠ "hourly_cost" ∧ opt.Name ≠ "total_cpu" ∧ opt.Name ≠ "total_memory" := by
  simpa [udf.Option.recognised] using h

/-- The loop gives the same result on a list and on that list without its
unrecognised entries, a panic included. -/
theorem costHandler.initOptions_filter (opts : List udf.Option) (a : costHandler) :
    a.initOptions (opts.filter udf.Option.recognised) = a.initOptions opts := by
  induction opts generalizing a with
  | nil => rfl
  | cons opt rest ih =>
    cases hr : opt.recognised with
    | true =>
      rw [List.filter_cons_of_pos hr]
      simp only [costHandler.initOptions]
      cases a.initOption opt with
      | error x => rfl
      | ok b => exact ih b
    | false =>
      have hf : ¬ (opt.recognised = true) := by simp [hr]
      obtain ⟨h1, h2, h3⟩ := opt.recognised_eq_false hr
      rw [List.filter_cons_of_neg hf]
      simp only [costHandler.initOptions, a.initOption_unrecognised opt h1 h2 h3]
      exact ih a

/-- C14.  `Init` ignores unrecognised option names: in every handler state, two option
lists that agree once the entries named none of `hourly_cost`, `total_cpu`,
`total_memory` are left out (so one is got from the other by inserting and removing
such entries, anywhere, whatever their values) give the same result of `Init`: the
same stored configuration, the same response, or the same panic. -/
theorem Init_ignores_unrecognised (a : costHandler) (r1 r2 : udf.InitRequest)
    (h : r1.Options.filter udf.Option.recognised = r2.Options.filter udf.Option.recognised) :
    a.Init r1 = a.Init r2 := by
  have e1 := costHandler.initOptions_filter r1.Options a
  have e2 := costHandler.initOptions_filter r2.Options a
  rw [h] at e1
  simp only [costHandler.Init, ← e1, e2]

/-- The witness of C14: two unrecognised entries, one with no value, around the
hourly cost. -/
theorem Init_ignores_unrecognised_witness :
    (([⟨"region", []⟩, ⟨"hourly_cost", [.DoubleValue 10]⟩,
        ⟨"Total_cpu", [.StringValue "x"]⟩] : List udf.Option).filter udf.Option.recognised
      = ([⟨"hourly_cost", [.DoubleValue 10]⟩] : List udf.Option).filter
          udf.Option.recognised) ∧
    (⟨0, 4000, 8192, ⟨[]⟩⟩ : costHandler).Init ⟨[⟨"region", []⟩,
        ⟨"hourly_cost", [.DoubleValue 10]⟩, ⟨"Total_cpu", [.StringValue "x"]⟩]⟩
      = (⟨0, 4000, 8192, ⟨[]⟩⟩ : costHandler).Init ⟨[⟨"hourly_cost", [.DoubleValue 10]⟩]⟩ :=
  ⟨by simp [udf.Option.recognised],
   Init_ignores_unrecognised _ _ _ (by simp [udf.Option.recognised])⟩

/-! ## The floating-point map after `Point` -/

/-- C15, refuted as stated: the costs are rounded.  With the settings `(1, 3, 3)`
stored, the point with `cpu.value = 1`, `memory.value = 2`, `uptime.value = 36000000`
is sent with `cpu_cost = 6004799503160661 / 2 ^ 54` and
`memory_cost = 6004799503160661 / 2 ^ 53`, the binary64 numbers nearest to `1/3` and
`2/3`, whereas the four steps without rounding give `1/3` and `2/3`. -/
theorem Point_costs_are_rounded :
    ((⟨1, 3, 3, ⟨[]⟩⟩ : costHandler).Point
        ⟨7, "usage", "", "", "", [], [], [],
          [("cpu.value", 1), ("memory.value", 2), ("uptime.value", 36000000)], []⟩)
      = (⟨1, 3, 3, ⟨[.Response_Point
          ⟨7, "usage", "", "", "", [], [],
            [("cpu_cost", .fin (6004799503160661 / 2 ^ 54)),
             ("memory_cost", .fin (6004799503160661 / 2 ^ 53))], [], []⟩]⟩⟩, none) ∧
    ((36000000 : ℚ) / 36000000 * 1) * (1 / 3) = 1 / 3 ∧
    ((36000000 : ℚ) / 36000000 * 1) * (2 / 3) = 2 / 3 ∧
    float64.fin (6004799503160661 / 2 ^ 54) ≠ float64.fin (1 / 3) ∧
    float64.fin (6004799503160661 / 2 ^ 53) ≠ float64.fin (2 / 3) := by
  have r36 : float64.round (36000000 : ℚ) = 36000000 := float64.round_ofNat _ (by norm_num)
  have r2 : float64.round (2 : ℚ) = 2 := float64.round_ofNat _ (by norm_num)
  have r3 : float64.round (3 : ℚ) = 3 := float64.round_ofNat _ (by norm_num)
  have rA : float64.round (1 / 3) = 6004799503160661 / 2 ^ 54 := by
    rw [float64.round_eq (1 / 3) (-2) 6004799503160661 (by norm_num [abs_of_pos])
      (by norm_num [abs_of_pos]) (by norm_num [abs_lt])]
    norm_num
  have rB : float64.round (2 / 3) = 6004799503160661 / 2 ^ 53 := by
    rw [float64.round_eq (2 / 3) (-1) 6004799503160661 (by norm_num [abs_of_pos])
      (by norm_num [abs_of_pos]) (by norm_num [abs_lt])]
    norm_num
  have rA1 : float64.round (6004799503160661 / 2 ^ 54) = 6004799503160661 / 2 ^ 54 := by
    have h := float64.round_dyadic 6004799503160661 (-54) (by norm_num)
    norm_num at h ⊢
    exact h
  have rB1 : float64.round (6004799503160661 / 2 ^ 53) = 6004799503160661 / 2 ^ 53 := by
    have h := float64.round_dyadic 6004799503160661 (-53) (by norm_num)
    norm_num at h ⊢
    exact h
  have hf := costHandler.costPoint_FieldsDouble (⟨1, 3, 3, ⟨[]⟩⟩ : costHandler)
    ⟨7, "usage", "", "", "", [], [], [],
      [("cpu.value", 1), ("memory.value", 2), ("uptime.value", 36000000)], []⟩
    (by decide) (by decide)
  simp only [show mapIndex [("cpu.value", 1), ("memory.value", 2),
      ("uptime.value", 36000000)] "cpu.value" = 1 by decide,
    show mapIndex [("cpu.value", 1), ("memory.value", 2),
      ("uptime.value", 36000000)] "memory.value" = 2 by decide,
    show mapIndex [("cpu.value", 1), ("memory.value", 2),
      ("uptime.value", 36000000)] "uptime.value" = 36000000 by decide,
    Int.cast_ofNat, Int.cast_one, r36, r2, r3, float64.round_one] at hf
  rw [div_self (by norm_num), float64.round_one, one_mul, float64.round_one, rA, rB,
    one_mul, one_mul, rA1, rB1] at hf
  refine ⟨?_, by norm_num, by norm_num, ?_, ?_⟩
  · simp only [costHandler.Point, List.nil_append]
    rw [costHandler.costPoint_eq, hf]
  · intro h
    injection h with h
    norm_num at h
  · intro h
    injection h with h
    norm_num at h

/-- C15, amended.  When the stored totals are non-zero, `Point` sends a point whose
floating-point map is exactly the two entries `cpu_cost` and `memory_cost`, whatever
the floating-point map of the input held, with the values given by the four steps
`hourly_uptime = uptime / 36000000`, `uptime_cost = hourly_uptime * hourly_cost`,
`cpu_cost = uptime_cost * (cpu_usage / total_cpu)`,
`memory_cost = uptime_cost * (memory_usage / total_memory)` in binary64 arithmetic:
every conversion of an integer, every quotient and every product is rounded, and no
other rounding is applied.  The rounding is to nearest: its relative error is at most
`2 ^ (-53)`, and a value with at most 53 significant bits is not changed. -/
theorem Point_replaces_FieldsDouble_rounded (a : costHandler) (p : udf.Point)
    (hc : a.total_cpu ≠ 0) (hm : a.total_memory ≠ 0) :
    ∃ q, a.Point p = ({ a with agent := ⟨a.agent.Responses ++ [.Response_Point q]⟩ }, none) ∧
      (let cpu_usage : ℚ := float64.round (mapIndex p.FieldsInt "cpu.value")
       let memory_usage : ℚ := float64.round (mapIndex p.FieldsInt "memory.value")
       let uptime : ℚ := float64.round (mapIndex p.FieldsInt "uptime.value")
       let hourly_uptime : ℚ := float64.round (uptime / 36000000)
       let uptime_cost : ℚ := float64.round (hourly_uptime * float64.round a.hourly_cost)
       let cpu_cost : ℚ :=
         float64.round (uptime_cost * float64.round (cpu_usage / float64.round a.total_cpu))
       let memory_cost : ℚ :=
         float64.round
           (uptime_cost * float64.round (memory_usage / float64.round a.total_memory))
       q.FieldsDouble = [("cpu_cost", .fin cpu_cost), ("memory_cost", .fin memory_cost)]) ∧
      q.FieldsDouble.map Prod.fst = ["cpu_cost", "memory_cost"] ∧
      (∀ fd, a.costPoint { p with FieldsDouble := fd } = q) ∧
      (∀ x : ℚ, |float64.round x - x| ≤ |x| * (2 : ℚ) ^ (-53 : Int)) ∧
      (∀ m k : Int, |m| < 2 ^ 53 →
        float64.round ((m : ℚ) * (2 : ℚ) ^ k) = (m : ℚ) * (2 : ℚ) ^ k) :=
  ⟨a.costPoint p, rfl, a.costPoint_FieldsDouble p hc hm, rfl, fun _ => rfl,
    float64.round_error, float64.round_dyadic⟩

/-- The witness of C15 amended: a point that already carries floating-point fields. -/
theorem Point_replaces_FieldsDouble_rounded_witness :
    ((⟨10, 4000, 8192, ⟨[]⟩⟩ : costHandler).total_cpu ≠ 0 ∧
      (⟨10, 4000, 8192, ⟨[]⟩⟩ : costHandler).total_memory ≠ 0) ∧
    ∃ q, (⟨10, 4000, 8192, ⟨[]⟩⟩ : costHandler).Point
        ⟨7, "usage", "", "", "", [], [], [("load", .fin 3), ("cpu_cost", .nan)],
          [("cpu.value", 1000), ("uptime.value", 18000000)], []⟩
        = ({ (⟨10, 4000, 8192, ⟨[]⟩⟩ : costHandler) with
            agent := ⟨[] ++ [.Response_Point q]⟩ }, none) ∧
      (let cpu_usage : ℚ := float64.round (mapIndex [("cpu.value", 1000),
          ("uptime.value", 18000000)] "cpu.value")
       let memory_usage : ℚ := float64.round (mapIndex [("cpu.value", 1000),
          ("uptime.value", 18000000)] "memory.value")
       let uptime : ℚ := float64.round (mapIndex [("cpu.value", 1000),
          ("uptime.value", 18000000)] "uptime.value")
       let hourly_uptime : ℚ := float64.round (uptime / 36000000)
       let uptime_cost : ℚ := float64.round (hourly_uptime * float64.round (10 : Int))
       let cpu_cost : ℚ :=
         float64.round (uptime_cost * float64.round (cpu_usage / float64.round (4000 : Int)))
       let memory_cost : ℚ :=
         float64.round
           (uptime_cost * float64.round (memory_usage / float64.round (8192 : Int)))
       q.FieldsDouble = [("cpu_cost", .fin cpu_cost), ("memory_cost", .fin memory_cost)]) ∧
      q.FieldsDouble.map Prod.fst = ["cpu_cost", "memory_cost"] ∧
      (∀ fd, (⟨10, 4000, 8192, ⟨[]⟩⟩ : costHandler).costPoint
        { (⟨7, "usage", "", "", "", [], [], [("load", .fin 3), ("cpu_cost", .nan)],
            [("cpu.value", 1000), ("uptime.value", 18000000)], []⟩ : udf.Point) with
          FieldsDouble := fd } = q) ∧
      (∀ x : ℚ, |float64.round x - x| ≤ |x| * (2 : ℚ) ^ (-53 : Int)) ∧
      (∀ m k : Int, |m| < 2 ^ 53 →
        float64.round ((m : ℚ) * (2 : ℚ) ^ k) = (m : ℚ) * (2 : ℚ) ^ k) :=
  ⟨by decide, Point_replaces_FieldsDouble_rounded _ _ (by decide) (by decide)⟩

/-! ## The hourly cost is stored as an integer -/

/-- Within the range of `int` the conversion is the truncation. -/
theorem float64.toInt_eq_trunc (d : ℚ) (hlo : -9223372036854775809 < d)
    (hhi : d < 9223372036854775808) : float64.toInt d = float64.trunc d := by
  apply float64.toInt_of_trunc
  · unfold float64.trunc
    split_ifs with h0
    · have : (0 : Int) ≤ ⌊d⌋ := Int.floor_nonneg.mpr h0
      omega
    · have h1 : d ≤ (⌈d⌉ : ℚ) := Int.le_ceil d
      have h2 : ((-9223372036854775809 : Int) : ℚ) < ((⌈d⌉ : Int) : ℚ) := by
        push_cast
        linarith
      have := Int.cast_lt.mp h2
      omega
  · unfold float64.trunc
    split_ifs with h0
    · have h1 : (⌊d⌋ : ℚ) ≤ d := Int.floor_le d
      have h2 : ((⌊d⌋ : Int) : ℚ) < ((9223372036854775808 : Int) : ℚ) := by
        push_cast
        linarith
      have := Int.cast_lt.mp h2
      omega
    · have h1 : ⌈d⌉ ≤ 0 := by
        rw [Int.ceil_le]
        simpa using le_of_lt (not_le.mp h0)
      omega

/-- Within the range of `int` the conversion discards the fraction: the result lies
between `0` and `d`, less than one away from `d`. -/
theorem float64.toInt_bounds (d : ℚ) (hlo : -9223372036854775809 < d)
    (hhi : d < 9223372036854775808) :
    (0 ≤ d → (float64.toInt d : ℚ) ≤ d ∧ d < (float64.toInt d : ℚ) + 1 ∧
      0 ≤ float64.toInt d) ∧
    (d ≤ 0 → d ≤ (float64.toInt d : ℚ) ∧ (float64.toInt d : ℚ) < d + 1 ∧
      float64.toInt d ≤ 0) := by
  rw [float64.toInt_eq_trunc d hlo hhi]
  unfold float64.trunc
  constructor
  · intro h
    rw [if_pos h]
    exact ⟨Int.floor_le d, Int.lt_floor_add_one d, Int.floor_nonneg.mpr h⟩
  · intro h
    by_cases h0 : 0 ≤ d
    · have hd : d = 0 := le_antisymm h h0
      subst hd
      simp
    · rw [if_neg h0]
      refine ⟨Int.le_ceil d, Int.ceil_lt_add_one d, ?_⟩
      rw [Int.ceil_le]
      simpa using h

theorem float64.toInt_eq_zero (d : ℚ) (h1 : -1 < d) (h2 : d < 1) : float64.toInt d = 0 := by
  rw [float64.toInt_eq_trunc d (by linarith) (by linarith)]
  unfold float64.trunc
  by_cases h0 : 0 ≤ d
  · rw [if_pos h0, Int.floor_eq_iff]
    exact ⟨by simpa using h0, by simpa using h2⟩
  · rw [if_neg h0, Int.ceil_eq_iff]
    exact ⟨by simpa using h1, by simpa using le_of_lt (not_le.mp h0)⟩

theorem float64.one_le_toInt (d : ℚ) (h : 1 ≤ d) (hhi : d < 9223372036854775808) :
    1 ≤ float64.toInt d := by
  rw [float64.toInt_eq_trunc d (by linarith) hhi]
  unfold float64.trunc
  rw [if_pos (le_trans zero_le_one h)]
  exact Int.le_floor.mpr (by simpa using h)

/-- C16.  `Init` stores the supplied hourly cost with its fraction discarded.  For
well-typed entries, of which the last one named `hourly_cost` has the first value `h`,
with `h` within the range of `int` (`-2^63 - 1 < h < 2^63`), `Init` returns and the
stored hourly cost is `int(h)`: the integer between `0` and `h` less than one away
from `h`.  For `-1 < h < 1` the stored value is `0`, so `Init` fails and `Error`
begins with the hourly-cost message; for `h ≥ 1` the stored value is at least `1` and
the costs of every later point are computed, in binary64 arithmetic, with the stored
integer in the place of the hourly cost. -/
theorem Init_stores_truncated_hourly_cost (a : costHandler) (r : udf.InitRequest)
    (pre post : List udf.Option) (h : ℚ) (vs : List udf.OptionValue)
    (hw : ∀ opt ∈ r.Options, opt.wellTyped = true)
    (hr : r.Options = pre ++ ⟨"hourly_cost", .DoubleValue h :: vs⟩ :: post)
    (hp : ∀ o ∈ post, o.Name ≠ "hourly_cost")
    (hlo : -9223372036854775809 < h) (hhi : h < 9223372036854775808) :
    ∃ a1 resp, a.Init r = .ok (a1, resp, none) ∧
      a1.hourly_cost = float64.toInt h ∧
      (0 ≤ h → (a1.hourly_cost : ℚ) ≤ h ∧ h < (a1.hourly_cost : ℚ) + 1 ∧
        0 ≤ a1.hourly_cost) ∧
      (h ≤ 0 → h ≤ (a1.hourly_cost : ℚ) ∧ (a1.hourly_cost : ℚ) < h + 1 ∧
        a1.hourly_cost ≤ 0) ∧
      (-1 < h → h < 1 → a1.hourly_cost = 0 ∧ resp.Success = false ∧
        ∃ rest, resp.Error = msgHourlyCost ++ rest) ∧
      (1 ≤ h → 1 ≤ a1.hourly_cost ∧
        (a1.total_cpu ≠ 0 → a1.total_memory ≠ 0 → ∀ p : udf.Point,
          (a1.costPoint p).FieldsDouble =
            [("cpu_cost", .fin (float64.round (float64.round (float64.round
                (float64.round (mapIndex p.FieldsInt "uptime.value" : ℚ) / 36000000) *
                  float64.round (float64.toInt h : ℚ)) *
                float64.round (float64.round (mapIndex p.FieldsInt "cpu.value" : ℚ) /
                  float64.round (a1.total_cpu : ℚ))))),
             ("memory_cost", .fin (float64.round (float64.round (float64.round
                (float64.round (mapIndex p.FieldsInt "uptime.value" : ℚ) / 36000000) *
                  float64.round (float64.toInt h : ℚ)) *
                float64.round (float64.round (mapIndex p.FieldsInt "memory.value" : ℚ) /
                  float64.round (a1.total_memory : ℚ)))))])) := by
  obtain ⟨a1, h1⟩ := costHandler.initOptions_ok r.Options hw a
  have hl := h1
  rw [hr] at hl
  have hst : a1.hourly_cost = float64.toInt h :=
    (costHandler.initOptions_last pre post _ a a1 hl).1 rfl hp h vs rfl
  obtain ⟨b1, b2⟩ := float64.toInt_bounds h hlo hhi
  refine ⟨a1, a1.validate, costHandler.Init_eq _ _ _ h1, hst, ?_, ?_, ?_, ?_⟩
  · rw [hst]; exact b1
  · rw [hst]; exact b2
  · intro l1 l2
    have hz : a1.hourly_cost = 0 := by rw [hst]; exact float64.toInt_eq_zero h l1 l2
    refine ⟨hz, ?_, ?_⟩
    · cases hs : a1.validate.Success with
      | false => rfl
      | true => exact absurd hz (a1.validate_Success.mp hs).1
    · refine ⟨(if a1.total_cpu = 0 then msgTotalCpu else "") ++
        (if a1.total_memory = 0 then msgTotalMemory else ""), ?_⟩
      rw [a1.validate_Error, if_pos hz, String.append_assoc]
  · intro l
    refine ⟨by rw [hst]; exact float64.one_le_toInt h l hhi, fun hc hm p => ?_⟩
    rw [a1.costPoint_FieldsDouble p hc hm, hst]

/-- The witness of C16: the hourly cost `10.5` on a fresh handler. -/
theorem Init_stores_truncated_hourly_cost_witness :
    ((∀ opt ∈ (⟨[⟨"hourly_cost", [.DoubleValue (21 / 2)]⟩, ⟨"total_cpu", [.IntValue 4000]⟩,
          ⟨"total_memory", [.IntValue 8192]⟩]⟩ : udf.InitRequest).Options,
          opt.wellTyped = true) ∧
      (⟨[⟨"hourly_cost", [.DoubleValue (21 / 2)]⟩, ⟨"total_cpu", [.IntValue 4000]⟩,
          ⟨"total_memory", [.IntValue 8192]⟩]⟩ : udf.InitRequest).Options
        = [] ++ ⟨"hourly_cost", .DoubleValue (21 / 2) :: []⟩ ::
            [⟨"total_cpu", [.IntValue 4000]⟩, ⟨"total_memory", [.IntValue 8192]⟩] ∧
      (∀ o ∈ ([⟨"total_cpu", [.IntValue 4000]⟩, ⟨"total_memory", [.IntValue 8192]⟩] :
          List udf.Option), o.Name ≠ "hourly_cost") ∧
      (-9223372036854775809 : ℚ) < 21 / 2 ∧ (21 / 2 : ℚ) < 9223372036854775808) ∧
    ∃ a1 resp, (newCostHandler ⟨[]⟩).Init ⟨[⟨"hourly_cost", [.DoubleValue (21 / 2)]⟩,
        ⟨"total_cpu", [.IntValue 4000]⟩, ⟨"total_memory", [.IntValue 8192]⟩]⟩
          = .ok (a1, resp, none) ∧
      a1.hourly_cost = float64.toInt (21 / 2) ∧
      (0 ≤ (21 / 2 : ℚ) → (a1.hourly_cost : ℚ) ≤ 21 / 2 ∧
        (21 / 2 : ℚ) < (a1.hourly_cost : ℚ) + 1 ∧ 0 ≤ a1.hourly_cost) ∧
      ((21 / 2 : ℚ) ≤ 0 → (21 / 2 : ℚ) ≤ (a1.hourly_cost : ℚ) ∧
        (a1.hourly_cost : ℚ) < 21 / 2 + 1 ∧ a1.hourly_cost ≤ 0) ∧
      (-1 < (21 / 2 : ℚ) → (21 / 2 : ℚ) < 1 → a1.hourly_cost = 0 ∧ resp.Success = false ∧
        ∃ rest, resp.Error = msgHourlyCost ++ rest) ∧
      (1 ≤ (21 / 2 : ℚ) → 1 ≤ a1.hourly_cost ∧
        (a1.total_cpu ≠ 0 → a1.total_memory ≠ 0 → ∀ p : udf.Point,
          (a1.costPoint p).FieldsDouble =
            [("cpu_cost", .fin (float64.round (float64.round (float64.round
                (float64.round (mapIndex p.FieldsInt "uptime.value" : ℚ) / 36000000) *
                  float64.round (float64.toInt (21 / 2) : ℚ)) *
                float64.round (float64.round (mapIndex p.FieldsInt "cpu.value" : ℚ) /
                  float64.round (a1.total_cpu : ℚ))))),
             ("memory_cost", .fin (float64.round (float64.round (float64.round
                (float64.round (mapIndex p.FieldsInt "uptime.value" : ℚ) / 36000000) *
                  float64.round (float64.toInt (21 / 2) : ℚ)) *
                float64.round (float64.round (mapIndex p.FieldsInt "memory.value" : ℚ) /
                  float64.round (a1.total_memory : ℚ)))))])) :=
  ⟨⟨by simp [udf.Option.wellTyped], rfl, by simp, by norm_num, by norm_num⟩,
   Init_stores_truncated_hourly_cost (newCostHandler ⟨[]⟩) _ [] _ (21 / 2) []
    (by simp [udf.Option.wellTyped]) rfl (by simp) (by norm_num) (by norm_num)⟩

/-! ## `Init` validates what is stored -/

theorem costHandler.initOption_error (a : costHandler) (opt : udf.Option)
    (h : opt.wellTyped = false) : ∃ e, a.initOption opt = .error e := by
  unfold udf.Option.wellTyped at h
  unfold costHandler.initOption firstDouble firstInt
  by_cases n1 : opt.Name = "hourly_cost"
  · simp only [n1, if_true] at h ⊢
    split at h
    · cases h
    · rcases hv : opt.Values with _ | ⟨v, vs⟩
      · exact ⟨_, rfl⟩
      · cases v <;> first | exact ⟨_, rfl⟩ | (exfalso; simp_all)
  · simp only [n1, if_false] at h ⊢
    by_cases n2 : opt.Name = "total_cpu"
    · simp only [n2, true_or, if_true] at h ⊢
      split at h
      · cases h
      · rcases hv : opt.Values with _ | ⟨v, vs⟩
        · exact ⟨_, rfl⟩
        · cases v <;> first | exact ⟨_, rfl⟩ | (exfalso; simp_all)
    · by_cases n3 : opt.Name = "total_memory"
      · simp only [n2, n3, or_true, if_true, if_false] at h ⊢
        split at h
        · cases h
        · rcases hv : opt.Values with _ | ⟨v, vs⟩
          · exact ⟨_, rfl⟩
          · cases v <;> first | exact ⟨_, rfl⟩ | (exfalso; simp_all)
      · simp [n2, n3] at h

theorem costHandler.initOptions_error (opts : List udf.Option) (a : costHandler)
    (h : ∃ opt ∈ opts, opt.wellTyped = false) : ∃ e, a.initOptions opts = .error e := by
  induction opts generalizing a with
  | nil => obtain ⟨_, ho, _⟩ := h; cases ho
  | cons opt rest ih =>
    unfold costHandler.initOptions
    cases hb : a.initOption opt with
    | error x => exact ⟨x, rfl⟩
    | ok b =>
      obtain ⟨o, ho, hf⟩ := h
      rcases List.mem_cons.mp ho with rfl | hr
      · obtain ⟨x, hx⟩ := a.initOption_error o hf
        rw [hx] at hb
        cases hb
      · exact ih b ⟨o, hr, hf⟩

/-- C18.  `Init` is total only under the typing precondition.  If every entry named
`hourly_cost` has a double as its first value and every entry named `total_cpu` or
`total_memory` has an integer as its first value, `Init` returns a response and the
error `nil`, in every handler state.  A list with an entry violating this makes
`Init` panic instead of returning a response: a recognised name with no value is an
index out of range, a recognised name with a first value of another type is a failed
type assertion. -/
theorem Init_returns_when_wellTyped (a : costHandler) (r : udf.InitRequest)
    (hw : ∀ opt ∈ r.Options, opt.wellTyped = true) :
    (∃ a1 resp, a.Init r = .ok (a1, resp, none)) ∧
    (∀ r2 : udf.InitRequest, (∃ opt ∈ r2.Options, opt.wellTyped = false) →
      ∃ e, a.Init r2 = .error e) ∧
    a.Init ⟨[⟨"hourly_cost", []⟩]⟩ = .error .indexOutOfRange ∧
    a.Init ⟨[⟨"total_cpu", []⟩]⟩ = .error .indexOutOfRange ∧
    a.Init ⟨[⟨"total_memory", []⟩]⟩ = .error .indexOutOfRange ∧
    a.Init ⟨[⟨"hourly_cost", [.IntValue 10]⟩]⟩ = .error .typeAssertion ∧
    a.Init ⟨[⟨"total_cpu", [.DoubleValue 4000]⟩]⟩ = .error .typeAssertion ∧
    a.Init ⟨[⟨"total_memory", [.StringValue "8192"]⟩]⟩ = .error .typeAssertion := by
  obtain ⟨a1, h1⟩ := costHandler.initOptions_ok r.Options hw a
  refine ⟨⟨a1, a1.validate, costHandler.Init_eq _ _ _ h1⟩, ?_, ?_, ?_, ?_, ?_, ?_, ?_⟩
  · intro r2 h2
    obtain ⟨x, hx⟩ := costHandler.initOptions_error r2.Options a h2
    exact ⟨x, by simp [costHandler.Init, hx]⟩
  all_goals
    simp [costHandler.Init, costHandler.initOptions, costHandler.initOption, firstDouble,
      firstInt]

/-- The witness of C18: three well-typed entries on a fresh handler. -/
theorem Init_returns_when_wellTyped_witness :
    (∀ opt ∈ (⟨[⟨"hourly_cost", [.DoubleValue 10]⟩, ⟨"total_cpu", [.IntValue 4000]⟩,
        ⟨"total_memory", [.IntValue 8192]⟩]⟩ : udf.InitRequest).Options,
        opt.wellTyped = true) ∧
    ((∃ a1 resp, (newCostHandler ⟨[]⟩).Init ⟨[⟨"hourly_cost", [.DoubleValue 10]⟩,
        ⟨"total_cpu", [.IntValue 4000]⟩, ⟨"total_memory", [.IntValue 8192]⟩]⟩
          = .ok (a1, resp, none)) ∧
      (∀ r2 : udf.InitRequest, (∃ opt ∈ r2.Options, opt.wellTyped = false) →
        ∃ e, (newCostHandler ⟨[]⟩).Init r2 = .error e) ∧
      (newCostHandler ⟨[]⟩).Init ⟨[⟨"hourly_cost", []⟩]⟩ = .error .indexOutOfRange ∧
      (newCostHandler ⟨[]⟩).Init ⟨[⟨"total_cpu", []⟩]⟩ = .error .indexOutOfRange ∧
      (newCostHandler ⟨[]⟩).Init ⟨[⟨"total_memory", []⟩]⟩ = .error .indexOutOfRange ∧
      (newCostHandler ⟨[]⟩).Init ⟨[⟨"hourly_cost", [.IntValue 10]⟩]⟩
        = .error .typeAssertion ∧
      (newCostHandler ⟨[]⟩).Init ⟨[⟨"total_cpu", [.DoubleValue 4000]⟩]⟩
        = .error .typeAssertion ∧
      (newCostHandler ⟨[]⟩).Init ⟨[⟨"total_memory", [.StringValue "8192"]⟩]⟩
        = .error .typeAssertion) :=
  ⟨by simp [udf.Option.wellTyped],
   Init_returns_when_wellTyped _ _ (by simp [udf.Option.wellTyped])⟩

/-! ## Absent integer fields -/

theorem mapIndex_absent (m : List (String × Int)) (k : String) (h : m.lookup k = none) :
    mapIndex m k = 0 := by
  simp [mapIndex, h]

/-- C19.  `Point` reads an absent integer field as `0` and rejects no record.  For a
handler with non-zero totals and every point, `Point` returns the error `nil` and
sends one response; if the point has no `uptime.value`, or has it equal to `0`, both
costs are `0`; if it has no `cpu.value` the CPU cost is `0`, and if it has no
`memory.value` the memory cost is `0`, whatever else the point holds. -/
theorem Point_absent_field_is_zero (a : costHandler) (p : udf.Point)
    (hc : a.total_cpu ≠ 0) (hm : a.total_memory ≠ 0) :
    a.Point p =
      ({ a with agent := ⟨a.agent.Responses ++ [.Response_Point (a.costPoint p)]⟩ },
        none) ∧
    (p.FieldsInt.lookup "uptime.value" = none → mapIndex p.FieldsInt "uptime.value" = 0) ∧
    (p.FieldsInt.lookup "cpu.value" = none → mapIndex p.FieldsInt "cpu.value" = 0) ∧
    (p.FieldsInt.lookup "memory.value" = none → mapIndex p.FieldsInt "memory.value" = 0) ∧
    (p.FieldsInt.lookup "uptime.value" = none ∨ mapIndex p.FieldsInt "uptime.value" = 0 →
      (a.costPoint p).FieldsDouble = [("cpu_cost", .fin 0), ("memory_cost", .fin 0)]) ∧
    (p.FieldsInt.lookup "cpu.value" = none →
      (a.costPoint p).FieldsDouble.lookup "cpu_cost" = some (.fin 0)) ∧
    (p.FieldsInt.lookup "memory.value" = none →
      (a.costPoint p).FieldsDouble.lookup "memory_cost" = some (.fin 0)) := by
  refine ⟨rfl, mapIndex_absent _ _, mapIndex_absent _ _, mapIndex_absent _ _, ?_, ?_, ?_⟩
  · intro h
    have hz : mapIndex p.FieldsInt "uptime.value" = 0 :=
      h.elim (mapIndex_absent _ _) id
    rw [a.costPoint_FieldsDouble p hc hm, hz]
    simp [float64.round_zero]
  · intro h
    rw [a.costPoint_FieldsDouble p hc hm, mapIndex_absent _ _ h]
    simp [List.lookup, float64.round_zero]
  · intro h
    rw [a.costPoint_FieldsDouble p hc hm, mapIndex_absent _ _ h]
    simp [List.lookup, float64.round_zero]

/-- The witness of C19: a point with a memory reading only. -/
theorem Point_absent_field_is_zero_witness :
    ((⟨10, 4000, 8192, ⟨[]⟩⟩ : costHandler).total_cpu ≠ 0 ∧
      (⟨10, 4000, 8192, ⟨[]⟩⟩ : costHandler).total_memory ≠ 0) ∧
    ((⟨10, 4000, 8192, ⟨[]⟩⟩ : costHandler).Point
        ⟨7, "usage", "", "", "", [], [], [], [("memory.value", 4096)], []⟩ =
      ({ (⟨10, 4000, 8192, ⟨[]⟩⟩ : costHandler) with
          agent := ⟨[] ++ [.Response_Point ((⟨10, 4000, 8192, ⟨[]⟩⟩ : costHandler).costPoint
            ⟨7, "usage", "", "", "", [], [], [], [("memory.value", 4096)], []⟩)]⟩ },
        none) ∧
      (([("memory.value", 4096)] : List (String × Int)).lookup "uptime.value" = none →
        mapIndex [("memory.value", 4096)] "uptime.value" = 0) ∧
      (([("memory.value", 4096)] : List (String × Int)).lookup "cpu.value" = none →
        mapIndex [("memory.value", 4096)] "cpu.value" = 0) ∧
      (([("memory.value", 4096)] : List (String × Int)).lookup "memory.value" = none →
        mapIndex [("memory.value", 4096)] "memory.value" = 0) ∧
      (([("memory.value", 4096)] : List (String × Int)).lookup "uptime.value" = none ∨
          mapIndex [("memory.value", 4096)] "uptime.value" = 0 →
        ((⟨10, 4000, 8192, ⟨[]⟩⟩ : costHandler).costPoint
          ⟨7, "usage", "", "", "", [], [], [], [("memory.value", 4096)], []⟩).FieldsDouble
          = [("cpu_cost", .fin 0), ("memory_cost", .fin 0)]) ∧
      (([("memory.value", 4096)] : List (String × Int)).lookup "cpu.value" = none →
        ((⟨10, 4000, 8192, ⟨[]⟩⟩ : costHandler).costPoint
          ⟨7, "usage", "", "", "", [], [], [], [("memory.value", 4096)],
            []⟩).FieldsDouble.lookup "cpu_cost" = some (.fin 0)) ∧
      (([("memory.value", 4096)] : List (String × Int)).lookup "memory.value" = none →
        ((⟨10, 4000, 8192, ⟨[]⟩⟩ : costHandler).costPoint
          ⟨7, "usage", "", "", "", [], [], [], [("memory.value", 4096)],
            []⟩).FieldsDouble.lookup "memory_cost" = some (.fin 0))) :=
  ⟨by decide, Point_absent_field_is_zero _ _ (by decide) (by decide)⟩
